import Mathlib

/-!
# Fraud detection service: shallow embedding and verification

Embedding of `internal/models/models.go` and
`internal/service/fraud_detection_service.go`.

Modelling conventions
* Go `string` values are Lean `String`s (valid UTF-8 text); `len` of a string is
  its number of bytes (`String.utf8ByteSize`), as in Go.
* Go `float64` values are exact rationals `ℚ`: every score constant of the
  program is a decimal literal, and the model has no rounding, NaN or infinity.
* Go `int` counters are `Int`. The counters of the store start at zero and grow
  by one per call, the store's fields are unexported, so no reachable store
  overflows a 64-bit counter.
* A Go `map[string]V` is a function `String → Option V` (`none`: key absent).
* `time.Time` is an instant (nanoseconds since the Unix epoch) together with
  the zone offset in effect; `time.Now()` is an explicit clock argument.
* `*[]string` out-parameters become explicit list passing; the service
  receiver becomes explicit state passing. The mutex is not modelled: every
  function is executed as one sequential step.
-/

set_option autoImplicit false

namespace FraudDetection

/-! ## Library model: `time`, `strings`, `unicode` -/

/-- A `time.Time`: the instant in nanoseconds since the Unix epoch and the
offset (seconds east of UTC) of its location at that instant. -/
structure Time where
  unixNano : Int
  offset : Int
  deriving DecidableEq

/-- Seconds since the Unix epoch on the local clock of the time's location. -/
def Time.localSeconds (t : Time) : Int :=
  t.unixNano / 1000000000 + t.offset

/-- Go `Time.Hour`: the hour within the day of the local clock. -/
def Time.Hour (t : Time) : Int :=
  (t.localSeconds % 86400) / 3600

/-- Go `Time.After`: comparison of the instants. -/
def Time.After (t u : Time) : Bool :=
  decide (t.unixNano > u.unixNano)

/-- Go `Time.Add` of a duration given in nanoseconds. -/
def Time.Add (t : Time) (d : Int) : Time :=
  { t with unixNano := t.unixNano + d }

/-- Go `time.Minute` in nanoseconds. -/
def Minute : Int := 60 * 1000000000

/-- Proleptic Gregorian civil date (year, month, day) of a day number counted
from 1970-01-01. -/
def civilFromDays (days : Int) : Int × Int × Int :=
  let z := days + 719468
  let era := z / 146097
  let doe := z % 146097
  let yoe := (doe - doe / 1460 + doe / 36524 - doe / 146096) / 365
  let doy := doe - (365 * yoe + yoe / 4 - yoe / 100)
  let mp := (5 * doy + 2) / 153
  let d := doy - (153 * mp + 2) / 5 + 1
  let m := if mp < 10 then mp + 3 else mp - 9
  let y := yoe + era * 400
  (if m ≤ 2 then y + 1 else y, m, d)

/-- The `appendInt` helper of `time.Format`: an optional minus sign, then the
decimal digits padded with zeros on the left up to `width`. -/
def appendInt (x : Int) (width : Nat) : String :=
  let digits := Nat.toDigits 10 x.natAbs
  let body := List.replicate (width - digits.length) '0' ++ digits
  ⟨if x < 0 then '-' :: body else body⟩

/-- Go `Time.Format("2006-01-02")`: year (four digits at least), month and day of
the local date, separated by hyphens. -/
def Time.FormatDate (t : Time) : String :=
  let c := civilFromDays (t.localSeconds / 86400)
  appendInt c.1 4 ++ "-" ++ appendInt c.2.1 2 ++ "-" ++ appendInt c.2.2 2

/-- Go `unicode.IsSpace`: the Unicode White_Space property. -/
def isSpace (c : Char) : Bool :=
  let r := c.toNat
  r == 0x09 || r == 0x0A || r == 0x0B || r == 0x0C || r == 0x0D || r == 0x20 ||
  r == 0x85 || r == 0xA0 || r == 0x1680 || (0x2000 ≤ r && r ≤ 0x200A) ||
  r == 0x2028 || r == 0x2029 || r == 0x202F || r == 0x205F || r == 0x3000

/-- Go `strings.TrimSpace`: the string without its leading and trailing white
space. -/
def TrimSpace (s : String) : String :=
  ⟨((s.data.dropWhile isSpace).reverse.dropWhile isSpace).reverse⟩

/-- Go `strings.HasPrefix`. -/
def HasPrefix (s pre : String) : Bool :=
  pre.data.isPrefixOf s.data

/-- Builtin `len` on a string: its length in bytes. -/
def len (s : String) : Nat :=
  s.utf8ByteSize

/-! ## `models` -/

/-- Source: `type TransactionType string`. -/
abbrev TransactionType := String

/-- Source: `type RiskLevel string`. -/
abbrev RiskLevel := String

def LowRisk : RiskLevel := "LOW"
def MediumRisk : RiskLevel := "MEDIUM"
def HighRisk : RiskLevel := "HIGH"

/-- Source `FromScore`: determines the risk level of a risk score. -/
def FromScore (score : ℚ) : RiskLevel :=
  if score < 0.3 then LowRisk
  else if score < 0.7 then MediumRisk
  else HighRisk

structure Transaction where
  ID : Option Int
  TransactionID : String
  AccountID : String
  Amount : ℚ
  Currency : String
  MerchantID : String
  MerchantCategory : String
  TransactionTimestamp : Time
  IPAddress : String
  DeviceFingerprint : String
  LocationCountry : String
  LocationCity : String
  TransactionType : TransactionType
  IsCardPresent : Option Bool
  deriving DecidableEq

structure ValidationError where
  Field : String
  Message : String
  deriving DecidableEq

/-- Source `Transaction.Validate`; `none` is Go's `nil` error. -/
def Transaction.Validate (t : Transaction) : Option ValidationError :=
  if TrimSpace t.TransactionID = "" then
    some { Field := "transactionId", Message := "cannot be blank" }
  else if TrimSpace t.AccountID = "" then
    some { Field := "accountId", Message := "cannot be blank" }
  else if t.Amount ≤ 0 then
    some { Field := "amount", Message := "must be greater than 0" }
  else if len (TrimSpace t.Currency) ≠ 3 then
    some { Field := "currency", Message := "must be 3 characters" }
  else if TrimSpace t.MerchantID = "" then
    some { Field := "merchantId", Message := "cannot be blank" }
  else none

structure FraudAnalysisResult where
  TransactionID : String
  RiskScore : ℚ
  RiskLevel : RiskLevel
  Decision : String
  RiskFactors : List String
  Recommendations : List String
  AnalysisTimestamp : Time
  ModelVersion : String
  deriving DecidableEq

/-- Source `NewFraudAnalysisResult`; `now` is the value `time.Now()` returns. -/
def NewFraudAnalysisResult (now : Time) (transactionID : String) (riskScore : ℚ)
    (riskLevel : RiskLevel) (decision : String) : FraudAnalysisResult :=
  { TransactionID := transactionID
    RiskScore := riskScore
    RiskLevel := riskLevel
    Decision := decision
    RiskFactors := []
    Recommendations := []
    AnalysisTimestamp := now
    ModelVersion := "1.0" }

/-! ## `service` -/

/-- The in-memory store of the service. -/
structure FraudDetectionService where
  accountHistory : String → Option (List Transaction)
  dailyTransactionCounts : String → Option Int

def HighAmountThreshold : ℚ := 10000.0
def UnusualAmountMultiplier : ℚ := 5.0
def MaxDailyTransactions : Int := 10
def SuspiciousVelocityMinutes : Int := 5

/-- Source `NewFraudDetectionService`: both maps empty. -/
def NewFraudDetectionService : FraudDetectionService :=
  { accountHistory := fun _ => none
    dailyTransactionCounts := fun _ => none }

/-- Map assignment `m[key] = v`. -/
def mapSet {V : Type} (m : String → Option V) (key : String) (v : V) : String → Option V :=
  fun k => if k = key then some v else m k

def isHighRiskCountry (country : String) : Bool :=
  let highRiskCountries := ["XX", "YY", "ZZ"]
  highRiskCountries.any (fun hrc => country = hrc)

def hasGeographicInconsistency (_transaction : Transaction) : Bool :=
  false

def isNewDevice (_transaction : Transaction) : Bool :=
  true

def isSuspiciousIP (ipAddress : String) : Bool :=
  HasPrefix ipAddress "10.0.0"

def isHighRiskMerchantCategory (category : String) : Bool :=
  let highRiskCategories := ["gambling", "adult", "cryptocurrency", "money_transfer"]
  highRiskCategories.any (fun hrc => category = hrc)

/-- Source `updateTransactionHistory`: append to the account's slice (a missing key
reads as the empty slice). -/
def updateTransactionHistory (s : FraudDetectionService) (transaction : Transaction) :
    FraudDetectionService :=
  let history := (s.accountHistory transaction.AccountID).getD []
  { s with accountHistory := mapSet s.accountHistory transaction.AccountID (history ++ [transaction]) }

/-- Source `getRecentTransactions`; `now` is the value `time.Now()` returns. -/
def getRecentTransactions (s : FraudDetectionService) (now : Time) (accountID : String)
    (minutes : Int) : List Transaction :=
  match s.accountHistory accountID with
  | none => []
  | some transactions =>
    let cutoff := now.Add (-minutes * Minute)
    transactions.foldl
      (fun recent t => if t.TransactionTimestamp.After cutoff then recent ++ [t] else recent) []

/-- Source `analyzeAmountRisk`: the risk and the extended factor list. -/
def analyzeAmountRisk (s : FraudDetectionService) (transaction : Transaction)
    (riskFactors : List String) : ℚ × List String :=
  let risk : ℚ := 0.0
  let high := decide (transaction.Amount > HighAmountThreshold)
  let risk := if high then risk + 0.3 else risk
  let riskFactors := if high then riskFactors ++ ["High transaction amount"] else riskFactors
  match s.accountHistory transaction.AccountID with
  | none => (risk, riskFactors)
  | some history =>
    if history.length > 0 then
      let sum : ℚ := history.foldl (fun sum t => sum + t.Amount) 0
      let avgAmount := sum / (history.length : ℚ)
      if transaction.Amount > avgAmount * UnusualAmountMultiplier then
        (risk + 0.2, riskFactors ++ ["Unusual amount compared to account history"])
      else (risk, riskFactors)
    else (risk, riskFactors)

/-- The key of the daily counter of a transaction. -/
def dailyKey (transaction : Transaction) : String :=
  transaction.AccountID ++ ":" ++ transaction.TransactionTimestamp.FormatDate

/-- Source `analyzeVelocityRisk`: the risk, the extended factor list and the store with
the daily counter incremented. -/
def analyzeVelocityRisk (s : FraudDetectionService) (now : Time) (transaction : Transaction)
    (riskFactors : List String) : ℚ × List String × FraudDetectionService :=
  let risk : ℚ := 0.0
  let dailyKey := dailyKey transaction
  let dailyCount := (s.dailyTransactionCounts dailyKey).getD 0 + 1
  let s := { s with dailyTransactionCounts := mapSet s.dailyTransactionCounts dailyKey dailyCount }
  let daily := decide (dailyCount > MaxDailyTransactions)
  let risk := if daily then risk + 0.2 else risk
  let riskFactors := if daily then riskFactors ++ ["High daily transaction count"] else riskFactors
  let recentTransactions :=
    getRecentTransactions s now transaction.AccountID SuspiciousVelocityMinutes
  if recentTransactions.length ≥ 3 then
    (risk + 0.25, riskFactors ++ ["Multiple transactions within short time frame"], s)
  else (risk, riskFactors, s)

def analyzeGeographicRisk (transaction : Transaction) (riskFactors : List String) :
    ℚ × List String :=
  let risk : ℚ := 0.0
  let country := isHighRiskCountry transaction.LocationCountry
  let risk := if country then risk + 0.4 else risk
  let riskFactors :=
    if country then
      riskFactors ++ ["Transaction from high-risk country: " ++ transaction.LocationCountry]
    else riskFactors
  if hasGeographicInconsistency transaction then
    (risk + 0.3, riskFactors ++ ["Geographic inconsistency detected"])
  else (risk, riskFactors)

def analyzeTimeBasedRisk (transaction : Transaction) (riskFactors : List String) :
    ℚ × List String :=
  let risk : ℚ := 0.0
  let hour := transaction.TransactionTimestamp.Hour
  if hour < 6 ∨ hour > 23 then
    (risk + 0.1, riskFactors ++ ["Transaction during unusual hours"])
  else (risk, riskFactors)

def analyzeDeviceRisk (transaction : Transaction) (riskFactors : List String) :
    ℚ × List String :=
  let risk : ℚ := 0.0
  let device := decide (transaction.DeviceFingerprint ≠ "") && isNewDevice transaction
  let risk := if device then risk + 0.15 else risk
  let riskFactors := if device then riskFactors ++ ["Transaction from new device"] else riskFactors
  if isSuspiciousIP transaction.IPAddress then
    (risk + 0.2, riskFactors ++ ["Transaction from suspicious IP address"])
  else (risk, riskFactors)

def analyzeMerchantRisk (transaction : Transaction) (riskFactors : List String) :
    ℚ × List String :=
  let risk : ℚ := 0.0
  if isHighRiskMerchantCategory transaction.MerchantCategory then
    (risk + 0.15,
      riskFactors ++ ["High-risk merchant category: " ++ transaction.MerchantCategory])
  else (risk, riskFactors)

def determineDecision (riskScore : ℚ) : String :=
  if riskScore < 0.3 then "APPROVE"
  else if riskScore < 0.7 then "REVIEW"
  else "DECLINE"

/-- Source `generateRecommendations`: the extended recommendation list. -/
def generateRecommendations (riskLevel : RiskLevel) (recommendations : List String) :
    List String :=
  if riskLevel = LowRisk then
    recommendations ++ ["Process transaction normally"]
  else if riskLevel = MediumRisk then
    (recommendations ++ ["Additional verification recommended"]) ++
      ["Monitor account for suspicious activity"]
  else if riskLevel = HighRisk then
    ((recommendations ++ ["Manual review required"]) ++
      ["Contact customer for verification"]) ++ ["Consider temporary account restrictions"]
  else recommendations

/-- The outcome of a call: Go's two return values and the store after it. -/
structure Outcome where
  result : Option FraudAnalysisResult
  err : Option ValidationError
  store : FraudDetectionService

/-- Source `AnalyzeTransaction`. `now` is the clock value read by
`getRecentTransactions`, `stamp` the one read by `NewFraudAnalysisResult`. -/
def AnalyzeTransaction (s : FraudDetectionService) (now stamp : Time)
    (transaction : Transaction) : Outcome :=
  match transaction.Validate with
  | some err => { result := none, err := some err, store := s }
  | none =>
    let riskScore : ℚ := 0
    let riskFactors : List String := []
    let recommendations : List String := []
    let amount := analyzeAmountRisk s transaction riskFactors
    let riskScore := riskScore + amount.1
    let riskFactors := amount.2
    let velocity := analyzeVelocityRisk s now transaction riskFactors
    let riskScore := riskScore + velocity.1
    let riskFactors := velocity.2.1
    let s := velocity.2.2
    let geographic := analyzeGeographicRisk transaction riskFactors
    let riskScore := riskScore + geographic.1
    let riskFactors := geographic.2
    let timeBased := analyzeTimeBasedRisk transaction riskFactors
    let riskScore := riskScore + timeBased.1
    let riskFactors := timeBased.2
    let device := analyzeDeviceRisk transaction riskFactors
    let riskScore := riskScore + device.1
    let riskFactors := device.2
    let merchant := analyzeMerchantRisk transaction riskFactors
    let riskScore := riskScore + merchant.1
    let riskFactors := merchant.2
    let riskScore := min 1.0 riskScore
    let riskLevel := FromScore riskScore
    let decision := determineDecision riskScore
    let recommendations := generateRecommendations riskLevel recommendations
    let s := updateTransactionHistory s transaction
    let result :=
      NewFraudAnalysisResult stamp transaction.TransactionID riskScore riskLevel decision
    let result := { result with RiskFactors := riskFactors, Recommendations := recommendations }
    { result := some result, err := none, store := s }

/-! ## The data-model invariant of the specification -/

/-- Non-blank: the string has a character that is not white space. -/
def nonBlank (s : String) : Bool :=
  s.data.any (fun c => !isSpace c)

/-- Number of characters of the string after trimming. -/
def trimmedCharacters (s : String) : Nat :=
  (TrimSpace s).length

/-- The invariant of a transaction: identifier, account identifier and merchant
identifier non-blank, amount positive, currency of exactly 3 characters after
trimming. -/
def Transaction.Invariant (t : Transaction) : Prop :=
  nonBlank t.TransactionID = true ∧ nonBlank t.AccountID = true ∧
  nonBlank t.MerchantID = true ∧ t.Amount > 0 ∧ trimmedCharacters t.Currency = 3

instance (t : Transaction) : Decidable t.Invariant := by
  unfold Transaction.Invariant
  infer_instance

/-- The field of the first violated invariant, in the order transaction ID,
account ID, amount, currency, merchant ID; none when the invariant holds. -/
def firstViolated (t : Transaction) : Option String :=
  if nonBlank t.TransactionID = false then some "transactionId"
  else if nonBlank t.AccountID = false then some "accountId"
  else if ¬ t.Amount > 0 then some "amount"
  else if trimmedCharacters t.Currency ≠ 3 then some "currency"
  else if nonBlank t.MerchantID = false then some "merchantId"
  else none

/-- The field of the first check of Validate that fails, the currency check
being the one on the byte length. -/
def firstFailedCheck (t : Transaction) : Option String :=
  if nonBlank t.TransactionID = false then some "transactionId"
  else if nonBlank t.AccountID = false then some "accountId"
  else if ¬ t.Amount > 0 then some "amount"
  else if len (TrimSpace t.Currency) ≠ 3 then some "currency"
  else if nonBlank t.MerchantID = false then some "merchantId"
  else none

/-! ## The rule table of the specification

A second description of the scoring, written from the words of the rule table:
ten rules, each with a trigger condition on the transaction and the store as it
is before the call, a weight and a factor string. -/

/-- The recorded history of an account; empty when the account has none. -/
def history (s : FraudDetectionService) (accountID : String) : List Transaction :=
  (s.accountHistory accountID).getD []

/-- Arithmetic mean. -/
def mean (xs : List ℚ) : ℚ :=
  xs.sum / (xs.length : ℚ)

/-- The entries of the history whose timestamp is after the clock value minus
the window. -/
def recentHistory (s : FraudDetectionService) (now : Time) (accountID : String)
    (windowMinutes : Int) : List Transaction :=
  (history s accountID).filter
    (fun e => decide (e.TransactionTimestamp.unixNano > now.unixNano - windowMinutes * Minute))

/-- The count of the transaction's account and day before the call. -/
def dailyCount (s : FraudDetectionService) (t : Transaction) : Int :=
  (s.dailyTransactionCounts (dailyKey t)).getD 0

/-- The count after the increment. -/
def newDailyCount (s : FraudDetectionService) (t : Transaction) : Int :=
  dailyCount s t + 1

inductive Rule where
  | highAmount
  | unusualAmount
  | dailyVelocity
  | shortWindowVelocity
  | highRiskCountry
  | geographicInconsistency
  | unusualHour
  | newDevice
  | suspiciousIP
  | highRiskMerchant
  deriving DecidableEq, Repr

/-- The rules in the order of the table. -/
def Rule.all : List Rule :=
  [.highAmount, .unusualAmount, .dailyVelocity, .shortWindowVelocity, .highRiskCountry,
   .geographicInconsistency, .unusualHour, .newDevice, .suspiciousIP, .highRiskMerchant]

/-- The contribution column of the table. -/
def Rule.weight : Rule → ℚ
  | .highAmount => 0.3
  | .unusualAmount => 0.2
  | .dailyVelocity => 0.2
  | .shortWindowVelocity => 0.25
  | .highRiskCountry => 0.4
  | .geographicInconsistency => 0.3
  | .unusualHour => 0.1
  | .newDevice => 0.15
  | .suspiciousIP => 0.2
  | .highRiskMerchant => 0.15

/-- The trigger column of the table, on the store before the call. -/
def Rule.triggered (s : FraudDetectionService) (now : Time) (t : Transaction) : Rule → Bool
  | .highAmount => decide (t.Amount > 10000)
  | .unusualAmount =>
    decide (history s t.AccountID ≠ [] ∧
      t.Amount > 5 * mean ((history s t.AccountID).map (fun e => e.Amount)))
  | .dailyVelocity => decide (newDailyCount s t > 10)
  | .shortWindowVelocity => decide ((recentHistory s now t.AccountID 5).length ≥ 3)
  | .highRiskCountry => decide (t.LocationCountry ∈ ["XX", "YY", "ZZ"])
  | .geographicInconsistency => false
  | .unusualHour =>
    decide (t.TransactionTimestamp.Hour < 6 ∨ t.TransactionTimestamp.Hour > 23)
  | .newDevice => decide (t.DeviceFingerprint ≠ "")
  | .suspiciousIP => decide (t.IPAddress.data.take 6 = "10.0.0".data)
  | .highRiskMerchant =>
    decide (t.MerchantCategory ∈ ["gambling", "adult", "cryptocurrency", "money_transfer"])

/-- The factor string column of the table. -/
def Rule.factor (t : Transaction) : Rule → String
  | .highAmount => "High transaction amount"
  | .unusualAmount => "Unusual amount compared to account history"
  | .dailyVelocity => "High daily transaction count"
  | .shortWindowVelocity => "Multiple transactions within short time frame"
  | .highRiskCountry => "Transaction from high-risk country: " ++ t.LocationCountry
  | .geographicInconsistency => "Geographic inconsistency detected"
  | .unusualHour => "Transaction during unusual hours"
  | .newDevice => "Transaction from new device"
  | .suspiciousIP => "Transaction from suspicious IP address"
  | .highRiskMerchant => "High-risk merchant category: " ++ t.MerchantCategory

/-- The fixed part of the factor string of a rule. -/
def Rule.stem : Rule → String
  | .highAmount => "High transaction amount"
  | .unusualAmount => "Unusual amount compared to account history"
  | .dailyVelocity => "High daily transaction count"
  | .shortWindowVelocity => "Multiple transactions within short time frame"
  | .highRiskCountry => "Transaction from high-risk country: "
  | .geographicInconsistency => "Geographic inconsistency detected"
  | .unusualHour => "Transaction during unusual hours"
  | .newDevice => "Transaction from new device"
  | .suspiciousIP => "Transaction from suspicious IP address"
  | .highRiskMerchant => "High-risk merchant category: "

/-- The rules that trigger, in table order. -/
def triggeredRules (s : FraudDetectionService) (now : Time) (t : Transaction) : List Rule :=
  Rule.all.filter (Rule.triggered s now t)

/-- The sum of the weights of the triggered rules. -/
def weightSum (s : FraudDetectionService) (now : Time) (t : Transaction) : ℚ :=
  ((triggeredRules s now t).map Rule.weight).sum

/-- The aggregate score of the specification: the weight sum clamped at 1. -/
def specRiskScore (s : FraudDetectionService) (now : Time) (t : Transaction) : ℚ :=
  min 1 (weightSum s now t)

/-- Weight of a rule when its condition holds, zero otherwise. -/
def contribution (b : Bool) (w : ℚ) : ℚ :=
  if b then w else 0

/-- Factor string of a rule when its condition holds, nothing otherwise. -/
def factorIf (b : Bool) (f : String) : List String :=
  if b then [f] else []

/-- The store after a successful call: the transaction appended to the history
of its account and the daily counter of its account and day incremented. -/
def storeAfter (s : FraudDetectionService) (t : Transaction) : FraudDetectionService :=
  { accountHistory := mapSet s.accountHistory t.AccountID (history s t.AccountID ++ [t])
    dailyTransactionCounts := mapSet s.dailyTransactionCounts (dailyKey t) (newDailyCount s t) }

/-- The result of a successful call in terms of the rule table. -/
def resultOf (s : FraudDetectionService) (now stamp : Time) (t : Transaction) :
    FraudAnalysisResult :=
  { TransactionID := t.TransactionID
    RiskScore := specRiskScore s now t
    RiskLevel := FromScore (specRiskScore s now t)
    Decision := determineDecision (specRiskScore s now t)
    RiskFactors := (triggeredRules s now t).map (Rule.factor t)
    Recommendations := generateRecommendations (FromScore (specRiskScore s now t)) []
    AnalysisTimestamp := stamp
    ModelVersion := "1.0" }

/-! ## Sequences of calls -/

/-- One call of `AnalyzeTransaction`: the two clock values it reads and its
argument. -/
structure Call where
  now : Time
  stamp : Time
  transaction : Transaction

/-- The outcomes of the calls made one after another, each on the store the
previous one left. -/
def analyzeAll (s : FraudDetectionService) : List Call → List Outcome
  | [] => []
  | c :: cs =>
    (AnalyzeTransaction s c.now c.stamp c.transaction) ::
      analyzeAll (AnalyzeTransaction s c.now c.stamp c.transaction).store cs

/-- The store after the calls made one after another. -/
def runCalls (s : FraudDetectionService) : List Call → FraudDetectionService
  | [] => s
  | c :: cs => runCalls (AnalyzeTransaction s c.now c.stamp c.transaction).store cs

/-- Whether the result of an outcome has the given factor; none when the call
returned no result. -/
def hasFactor (f : String) (o : Outcome) : Option Bool :=
  o.result.map (fun r => decide (f ∈ r.RiskFactors))

/-- Whether an earlier call counts for the daily counter of the transaction:
it passed Validate and has the same account and the same calendar day. -/
def countsFor (t : Transaction) (c : Call) : Bool :=
  c.transaction.Validate.isNone &&
  decide (c.transaction.AccountID = t.AccountID) &&
  decide (c.transaction.TransactionTimestamp.FormatDate = t.TransactionTimestamp.FormatDate)

/-! ## Calendar days and decimal text -/

/-- The calendar day of a time: year, month and day on the local clock of its
location. -/
def Time.Date (t : Time) : Int × Int × Int :=
  civilFromDays (t.localSeconds / 86400)

/-- The value of a decimal digit character. -/
def digitValue (c : Char) : Nat :=
  c.toNat - 48

/-- The number read from decimal digits, continuing from an accumulated value. -/
def readDigits (acc : Nat) (l : List Char) : Nat :=
  l.foldl (fun a c => a * 10 + digitValue c) acc

/-- The integer read from an optional minus sign followed by decimal digits. -/
def readInt (l : List Char) : Int :=
  match l with
  | [] => 0
  | c :: rest => if c = '-' then -((readDigits 0 rest : Nat) : Int) else (readDigits 0 (c :: rest) : Nat)

/-- The counter of a key in a store; zero for an absent key. -/
def counterAt (s : FraudDetectionService) (key : String) : Int :=
  (s.dailyTransactionCounts key).getD 0

/-! ## Sample data -/

/-- Time 2024-07-28 02:00:00 UTC. -/
def nightTime : Time := { unixNano := 1722132000 * 1000000000, offset := 0 }

/-- Time 2024-07-28 12:00:00 UTC. -/
def noonTime : Time := { unixNano := 1722168000 * 1000000000, offset := 0 }

/-- The `createBasicTransaction` helper of the test file, at a given time. -/
def createBasicTransaction (transactionID accountID : String) (amount : ℚ) (at_ : Time) :
    Transaction :=
  { ID := none
    TransactionID := transactionID
    AccountID := accountID
    Amount := amount
    Currency := "USD"
    MerchantID := "MERCHANT_001"
    MerchantCategory := "retail"
    TransactionTimestamp := at_
    IPAddress := "192.168.1.1"
    DeviceFingerprint := ""
    LocationCountry := "US"
    LocationCity := "New York"
    TransactionType := "PURCHASE"
    IsCardPresent := some true }

/-- The transaction of the test with several risk factors. -/
def multiFactorTransaction : Transaction :=
  { createBasicTransaction "TXN009" "ACC009" 12000 nightTime with
    LocationCountry := "XX"
    MerchantCategory := "cryptocurrency"
    DeviceFingerprint := "suspicious-device"
    IPAddress := "10.0.0.99" }

/-- A basic transaction whose currency has three two-byte characters. -/
def accentedCurrencyTransaction : Transaction :=
  { createBasicTransaction "TXN010" "ACC010" 100 noonTime with Currency := "ééé" }

/-- A basic transaction whose currency is one three-byte character. -/
def euroSignTransaction : Transaction :=
  { createBasicTransaction "TXN011" "ACC011" 100 noonTime with Currency := "€" }

/-- A transaction with a three-character, six-byte currency and a blank
merchant identifier. -/
def accentedBlankMerchantTransaction : Transaction :=
  { createBasicTransaction "TXN012" "ACC012" 100 noonTime with
    Currency := "ééé"
    MerchantID := "  " }

/-- A transaction with a blank account identifier and a non-positive amount. -/
def blankAccountTransaction : Transaction :=
  createBasicTransaction "TXN013" " " 0 noonTime

/-- An earlier transaction of account ACC009, at noon. -/
def earlierTransaction : Transaction :=
  createBasicTransaction "TXN000" "ACC009" 50 noonTime

/-- A store in which account ACC009 has two recorded transactions at noon. -/
def twoEntryStore : FraudDetectionService :=
  { accountHistory := mapSet (fun _ => none) "ACC009" [earlierTransaction, earlierTransaction]
    dailyTransactionCounts := mapSet (fun _ => none) "ACC009:2024-07-28" 2 }

/-- A third transaction of account ACC009 at noon, of a large amount. -/
def thirdTransaction : Transaction :=
  createBasicTransaction "TXN014" "ACC009" 9000 noonTime

/-- The low-risk transaction of the tests, at noon. -/
def lowRiskTransaction : Transaction :=
  createBasicTransaction "TXN001" "ACC001" 100 noonTime

/-- The high-amount transaction of the tests, at noon. -/
def highAmountTransaction : Transaction :=
  createBasicTransaction "TXN002" "ACC002" 15000 noonTime

/-- The high-risk country transaction of the tests, at noon. -/
def highRiskCountryTransaction : Transaction :=
  { createBasicTransaction "TXN003" "ACC003" 500 noonTime with LocationCountry := "XX" }

/-- The transaction of the recommendations test, at noon. -/
def declinedTransaction : Transaction :=
  { createBasicTransaction "TXN008" "ACC008" 20000 noonTime with
    LocationCountry := "XX"
    MerchantCategory := "gambling" }

/-- A call at noon with a basic transaction of account ACC017. -/
def burstCall (transactionID : String) : Call :=
  { now := noonTime
    stamp := noonTime
    transaction := createBasicTransaction transactionID "ACC017" 100 noonTime }

/-- Eleven calls at noon for account ACC017. -/
def elevenCalls : List Call :=
  ["B01", "B02", "B03", "B04", "B05", "B06", "B07", "B08", "B09", "B10", "B11"].map burstCall

/-- The new-device transaction of the tests, at noon. -/
def deviceTransaction : Transaction :=
  { createBasicTransaction "TXN006" "ACC006" 300 noonTime with
    DeviceFingerprint := "new-device-123" }

/-- A store in which account ACC006 already has a recorded transaction with the
fingerprint of the new-device transaction. -/
def seenDeviceStore : FraudDetectionService :=
  { accountHistory := mapSet (fun _ => none) "ACC006" [deviceTransaction]
    dailyTransactionCounts := mapSet (fun _ => none) "ACC006:2024-07-28" 1 }

/-- Time 2024-07-28 03:00:00 UTC. -/
def threeAmTime : Time := { unixNano := 1722135600 * 1000000000, offset := 0 }

/-- Time 2024-07-28 23:00:00 UTC. -/
def elevenPmTime : Time := { unixNano := 1722207600 * 1000000000, offset := 0 }

/-- The unusual-hours transaction of the tests, at 3 AM. -/
def threeAmTransaction : Transaction :=
  createBasicTransaction "TXN004" "ACC004" 200 threeAmTime

/-- A basic transaction at 11 PM. -/
def elevenPmTransaction : Transaction :=
  createBasicTransaction "TXN015" "ACC004" 200 elevenPmTime

/-- A transaction of account ACC009 whose amount is exactly 5 times the mean of
the two recorded amounts of 50. -/
def fiveTimesMeanTransaction : Transaction :=
  createBasicTransaction "TXN016" "ACC009" 250 noonTime

/-- A basic transaction at noon of an account whose identifier contains colons. -/
def colonAccountTransaction : Transaction :=
  createBasicTransaction "TXN017" "ACC:2024-07-28:X" 100 noonTime

/-- A basic transaction at noon of the day of the samples, account ACC. -/
def plainAccountTransaction : Transaction :=
  createBasicTransaction "TXN018" "ACC" 100 noonTime

/-! ## Risk levels and decisions -/

theorem levels_distinct :
    LowRisk ≠ MediumRisk ∧ LowRisk ≠ HighRisk ∧ MediumRisk ≠ HighRisk := by
  decide

theorem FromScore_low {s : ℚ} (h : s < 0.3) : FromScore s = LowRisk := by
  simp [FromScore, h]

theorem FromScore_medium {s : ℚ} (h1 : 0.3 ≤ s) (h2 : s < 0.7) : FromScore s = MediumRisk := by
  simp [FromScore, not_lt.mpr h1, h2]

theorem FromScore_high {s : ℚ} (h : 0.7 ≤ s) : FromScore s = HighRisk := by
  have h1 : ¬ s < 0.3 := by norm_num at h ⊢; linarith
  simp [FromScore, h1, not_lt.mpr h]

theorem determineDecision_low {s : ℚ} (h : s < 0.3) : determineDecision s = "APPROVE" := by
  simp [determineDecision, h]

theorem determineDecision_medium {s : ℚ} (h1 : 0.3 ≤ s) (h2 : s < 0.7) :
    determineDecision s = "REVIEW" := by
  simp [determineDecision, not_lt.mpr h1, h2]

theorem determineDecision_high {s : ℚ} (h : 0.7 ≤ s) : determineDecision s = "DECLINE" := by
  have h1 : ¬ s < 0.3 := by norm_num at h ⊢; linarith
  simp [determineDecision, h1, not_lt.mpr h]

/-- C1: for every score, `FromScore` is LowRisk iff the score is below 0.3,
MediumRisk iff it is in [0.3, 0.7), HighRisk iff it is at least 0.7; the
boundary values 0.3 and 0.7 map to MediumRisk and HighRisk. -/
theorem FromScore_bands (s : ℚ) :
    (FromScore s = LowRisk ↔ s < 0.3) ∧
    (FromScore s = MediumRisk ↔ 0.3 ≤ s ∧ s < 0.7) ∧
    (FromScore s = HighRisk ↔ s ≥ 0.7) ∧
    FromScore 0.3 = MediumRisk ∧ FromScore 0.7 = HighRisk := by
  obtain ⟨hlm, hlh, hmh⟩ := levels_distinct
  refine ⟨?_, ?_, ?_, FromScore_medium le_rfl (by norm_num), FromScore_high le_rfl⟩
  · constructor
    · intro h
      by_contra hn
      rcases lt_or_le s 0.7 with h7 | h7
      · rw [FromScore_medium (not_lt.mp hn) h7] at h
        exact hlm h.symm
      · rw [FromScore_high h7] at h
        exact hlh h.symm
    · exact FromScore_low
  · constructor
    · intro h
      rcases lt_or_le s 0.3 with h3 | h3
      · rw [FromScore_low h3] at h
        exact absurd h hlm
      · rcases lt_or_le s 0.7 with h7 | h7
        · exact ⟨h3, h7⟩
        · rw [FromScore_high h7] at h
          exact absurd h.symm hmh
    · exact fun h => FromScore_medium h.1 h.2
  · constructor
    · intro h
      by_contra hn
      have h7 : s < 0.7 := not_le.mp hn
      rcases lt_or_le s 0.3 with h3 | h3
      · rw [FromScore_low h3] at h
        exact hlh h
      · rw [FromScore_medium h3 h7] at h
        exact hmh h
    · exact FromScore_high

theorem decision_level_cases (s : ℚ) :
    (determineDecision s = "APPROVE" ∧ FromScore s = LowRisk) ∨
    (determineDecision s = "REVIEW" ∧ FromScore s = MediumRisk) ∨
    (determineDecision s = "DECLINE" ∧ FromScore s = HighRisk) := by
  rcases lt_or_le s 0.3 with h3 | h3
  · exact Or.inl ⟨determineDecision_low h3, FromScore_low h3⟩
  · rcases lt_or_le s 0.7 with h7 | h7
    · exact Or.inr (Or.inl ⟨determineDecision_medium h3 h7, FromScore_medium h3 h7⟩)
    · exact Or.inr (Or.inr ⟨determineDecision_high h7, FromScore_high h7⟩)

theorem decision_level_iff (s : ℚ) :
    (determineDecision s = "APPROVE" ↔ FromScore s = LowRisk) ∧
    (determineDecision s = "REVIEW" ↔ FromScore s = MediumRisk) ∧
    (determineDecision s = "DECLINE" ↔ FromScore s = HighRisk) := by
  have hd : "APPROVE" ≠ "REVIEW" ∧ "APPROVE" ≠ "DECLINE" ∧ "REVIEW" ≠ "DECLINE" := by decide
  have hl : "LOW" ≠ "MEDIUM" ∧ "LOW" ≠ "HIGH" ∧ "MEDIUM" ≠ "HIGH" := by decide
  obtain ⟨hd1, hd2, hd3⟩ := hd
  obtain ⟨hl1, hl2, hl3⟩ := hl
  rcases decision_level_cases s with ⟨h1, h2⟩ | ⟨h1, h2⟩ | ⟨h1, h2⟩ <;>
    simp [h1, h2, LowRisk, MediumRisk, HighRisk, hd1, hd2, hd3, hl1, hl2, hl3,
      hd1.symm, hd2.symm, hd3.symm, hl1.symm, hl2.symm, hl3.symm]

/-- The shape of every result that `AnalyzeTransaction` returns. -/
theorem AnalyzeTransaction_result_fields {st : FraudDetectionService} {now stamp : Time}
    {t : Transaction} {r : FraudAnalysisResult}
    (h : (AnalyzeTransaction st now stamp t).result = some r) :
    r.TransactionID = t.TransactionID ∧
    r.RiskLevel = FromScore r.RiskScore ∧
    r.Decision = determineDecision r.RiskScore ∧
    r.Recommendations = generateRecommendations r.RiskLevel [] ∧
    r.AnalysisTimestamp = stamp ∧ r.ModelVersion = "1.0" := by
  unfold AnalyzeTransaction at h
  split at h
  · simp at h
  · simp only [Option.some.injEq] at h
    subst h
    simp [NewFraudAnalysisResult]

/-- C2: `determineDecision` and `FromScore` use the same thresholds: APPROVE iff
LowRisk, REVIEW iff MediumRisk, DECLINE iff HighRisk, for every score; and the
Decision and RiskLevel of every result of `AnalyzeTransaction` correspond in
this way. -/
theorem decision_agrees_with_level (s : ℚ) :
    ((determineDecision s = "APPROVE" ↔ FromScore s = LowRisk) ∧
     (determineDecision s = "REVIEW" ↔ FromScore s = MediumRisk) ∧
     (determineDecision s = "DECLINE" ↔ FromScore s = HighRisk)) ∧
    ∀ (st : FraudDetectionService) (now stamp : Time) (t : Transaction)
      (r : FraudAnalysisResult), (AnalyzeTransaction st now stamp t).result = some r →
      (r.Decision = "APPROVE" ↔ r.RiskLevel = LowRisk) ∧
      (r.Decision = "REVIEW" ↔ r.RiskLevel = MediumRisk) ∧
      (r.Decision = "DECLINE" ↔ r.RiskLevel = HighRisk) := by
  refine ⟨decision_level_iff s, ?_⟩
  intro st now stamp t r h
  obtain ⟨-, hl, hd, -⟩ := AnalyzeTransaction_result_fields h
  rw [hl, hd]
  exact decision_level_iff r.RiskScore

/-! ## Closed forms of the rule functions -/

theorem foldl_amount_sum (l : List Transaction) (a : ℚ) :
    l.foldl (fun sum t => sum + t.Amount) a = a + (l.map (fun e => e.Amount)).sum := by
  induction l generalizing a with
  | nil => simp
  | cons x xs ih => simp [ih, add_assoc]

theorem foldl_recent (p : Transaction → Bool) (l acc : List Transaction) :
    l.foldl (fun recent t => if p t then recent ++ [t] else recent) acc = acc ++ l.filter p := by
  induction l generalizing acc with
  | nil => simp
  | cons x xs ih =>
    by_cases hp : p x <;> simp [ih, hp]

theorem getRecentTransactions_eq (s : FraudDetectionService) (now : Time) (accountID : String)
    (minutes : Int) :
    getRecentTransactions s now accountID minutes = recentHistory s now accountID minutes := by
  unfold getRecentTransactions recentHistory history
  cases h : s.accountHistory accountID with
  | none => simp
  | some l =>
    simp only [Option.getD_some]
    rw [foldl_recent]
    simp [Time.After, Time.Add, sub_eq_add_neg]

theorem analyzeAmountRisk_eq (s : FraudDetectionService) (now : Time) (t : Transaction)
    (fs : List String) :
    analyzeAmountRisk s t fs =
      (contribution (Rule.triggered s now t .highAmount) 0.3 +
         contribution (Rule.triggered s now t .unusualAmount) 0.2,
       fs ++ factorIf (Rule.triggered s now t .highAmount) "High transaction amount" ++
         factorIf (Rule.triggered s now t .unusualAmount)
           "Unusual amount compared to account history") := by
  have hthr : (t.Amount > HighAmountThreshold) ↔ t.Amount > 10000 := by
    norm_num [HighAmountThreshold]
  unfold analyzeAmountRisk
  simp only [Rule.triggered, history, hthr]
  rcases Option.eq_none_or_eq_some (s.accountHistory t.AccountID) with h | ⟨l, h⟩
  · simp only [h]
    by_cases h1 : t.Amount > 10000 <;> norm_num [contribution, factorIf, h1]
  · simp only [h]
    cases l with
    | nil => by_cases h1 : t.Amount > 10000 <;> norm_num [contribution, factorIf, h1]
    | cons x xs =>
      have hm : (List.foldl (fun sum t => sum + t.Amount) 0 (x :: xs) /
            ((x :: xs).length : ℚ)) * UnusualAmountMultiplier
          = 5 * mean ((x :: xs).map (fun e => e.Amount)) := by
        rw [foldl_amount_sum]
        simp only [mean, UnusualAmountMultiplier, List.length_map, zero_add]
        norm_num
        ring
      have hne : (x :: xs) ≠ [] := by simp
      have hlen : (x :: xs).length > 0 := by simp
      simp only [hm, Option.getD_some, hlen, hne, if_true, ne_eq, not_false_eq_true, true_and]
      by_cases h1 : t.Amount > 10000 <;>
        by_cases h2 : t.Amount > 5 * mean ((x :: xs).map (fun e => e.Amount)) <;>
        simp only [h1, h2, contribution, factorIf, decide_True, decide_False, if_true,
          if_false, List.append_nil, List.append_assoc] <;> norm_num

/-- The store after the daily counter of the transaction is incremented. -/
theorem analyzeVelocityRisk_store (s : FraudDetectionService) (now : Time) (t : Transaction)
    (fs : List String) :
    (analyzeVelocityRisk s now t fs).2.2 =
      { s with dailyTransactionCounts :=
          mapSet s.dailyTransactionCounts (dailyKey t) (newDailyCount s t) } := by
  unfold analyzeVelocityRisk
  simp only [newDailyCount, dailyCount]
  split <;> rfl

theorem analyzeVelocityRisk_eq (s : FraudDetectionService) (now : Time) (t : Transaction)
    (fs : List String) :
    analyzeVelocityRisk s now t fs =
      (contribution (Rule.triggered s now t .dailyVelocity) 0.2 +
         contribution (Rule.triggered s now t .shortWindowVelocity) 0.25,
       fs ++ factorIf (Rule.triggered s now t .dailyVelocity) "High daily transaction count" ++
         factorIf (Rule.triggered s now t .shortWindowVelocity)
           "Multiple transactions within short time frame",
       { s with dailyTransactionCounts :=
          mapSet s.dailyTransactionCounts (dailyKey t) (newDailyCount s t) }) := by
  have hrec : getRecentTransactions
      { s with dailyTransactionCounts :=
          mapSet s.dailyTransactionCounts (dailyKey t) (newDailyCount s t) }
      now t.AccountID SuspiciousVelocityMinutes = recentHistory s now t.AccountID 5 := by
    rw [getRecentTransactions_eq]
    rfl
  unfold analyzeVelocityRisk
  simp only [Rule.triggered]
  have hd : (s.dailyTransactionCounts (dailyKey t)).getD 0 + 1 = newDailyCount s t := rfl
  simp only [hd, hrec, MaxDailyTransactions]
  by_cases h1 : newDailyCount s t > 10 <;>
    by_cases h2 : (recentHistory s now t.AccountID 5).length ≥ 3 <;>
    simp only [h1, h2, contribution, factorIf, decide_True, decide_False, if_true,
      if_false, List.append_nil, List.append_assoc] <;> norm_num

theorem isHighRiskCountry_eq (c : String) :
    isHighRiskCountry c = decide (c ∈ ["XX", "YY", "ZZ"]) := by
  simp [isHighRiskCountry]

theorem isHighRiskMerchantCategory_eq (c : String) :
    isHighRiskMerchantCategory c =
      decide (c ∈ ["gambling", "adult", "cryptocurrency", "money_transfer"]) := by
  simp [isHighRiskMerchantCategory]

theorem isSuspiciousIP_eq (ip : String) :
    isSuspiciousIP ip = decide (ip.data.take 6 = "10.0.0".data) := by
  unfold isSuspiciousIP HasPrefix
  rw [Bool.eq_iff_iff]
  simp only [List.isPrefixOf_iff_prefix, decide_eq_true_eq]
  rw [List.prefix_iff_eq_take]
  constructor
  · intro h
    exact h.symm
  · intro h
    exact h.symm

theorem analyzeGeographicRisk_eq (s : FraudDetectionService) (now : Time) (t : Transaction)
    (fs : List String) :
    analyzeGeographicRisk t fs =
      (contribution (Rule.triggered s now t .highRiskCountry) 0.4 +
         contribution (Rule.triggered s now t .geographicInconsistency) 0.3,
       fs ++ factorIf (Rule.triggered s now t .highRiskCountry)
           ("Transaction from high-risk country: " ++ t.LocationCountry) ++
         factorIf (Rule.triggered s now t .geographicInconsistency)
           "Geographic inconsistency detected") := by
  unfold analyzeGeographicRisk
  simp only [Rule.triggered, isHighRiskCountry_eq, hasGeographicInconsistency]
  by_cases h1 : t.LocationCountry ∈ ["XX", "YY", "ZZ"] <;>
    simp only [h1, contribution, factorIf, decide_True, decide_False, if_true,
      if_false, List.append_nil, List.append_assoc] <;> norm_num

theorem analyzeTimeBasedRisk_eq (s : FraudDetectionService) (now : Time) (t : Transaction)
    (fs : List String) :
    analyzeTimeBasedRisk t fs =
      (contribution (Rule.triggered s now t .unusualHour) 0.1,
       fs ++ factorIf (Rule.triggered s now t .unusualHour)
           "Transaction during unusual hours") := by
  unfold analyzeTimeBasedRisk
  simp only [Rule.triggered]
  by_cases h1 : t.TransactionTimestamp.Hour < 6 ∨ t.TransactionTimestamp.Hour > 23 <;>
    simp only [h1, contribution, factorIf, decide_True, decide_False, if_true,
      if_false, List.append_nil, List.append_assoc] <;> norm_num

theorem analyzeDeviceRisk_eq (s : FraudDetectionService) (now : Time) (t : Transaction)
    (fs : List String) :
    analyzeDeviceRisk t fs =
      (contribution (Rule.triggered s now t .newDevice) 0.15 +
         contribution (Rule.triggered s now t .suspiciousIP) 0.2,
       fs ++ factorIf (Rule.triggered s now t .newDevice) "Transaction from new device" ++
         factorIf (Rule.triggered s now t .suspiciousIP)
           "Transaction from suspicious IP address") := by
  unfold analyzeDeviceRisk
  simp only [Rule.triggered, isSuspiciousIP_eq, isNewDevice, Bool.and_true]
  by_cases h1 : t.DeviceFingerprint = "" <;>
    by_cases h2 : t.IPAddress.data.take 6 = "10.0.0".data <;>
    simp only [h1, h2, contribution, factorIf, decide_True, decide_False, if_true,
      if_false, List.append_nil, List.append_assoc, ne_eq, not_true_eq_false,
      not_false_eq_true] <;> norm_num

theorem analyzeMerchantRisk_eq (s : FraudDetectionService) (now : Time) (t : Transaction)
    (fs : List String) :
    analyzeMerchantRisk t fs =
      (contribution (Rule.triggered s now t .highRiskMerchant) 0.15,
       fs ++ factorIf (Rule.triggered s now t .highRiskMerchant)
           ("High-risk merchant category: " ++ t.MerchantCategory)) := by
  unfold analyzeMerchantRisk
  simp only [Rule.triggered, isHighRiskMerchantCategory_eq]
  by_cases h1 : t.MerchantCategory ∈ ["gambling", "adult", "cryptocurrency", "money_transfer"] <;>
    simp only [h1, contribution, factorIf, decide_True, decide_False, if_true,
      if_false, List.append_nil, List.append_assoc] <;> norm_num

/-! ## Closed form of `AnalyzeTransaction` -/

theorem sum_filter_weights (p : Rule → Bool) (w : Rule → ℚ) (l : List Rule) :
    ((l.filter p).map w).sum = (l.map (fun r => contribution (p r) (w r))).sum := by
  induction l with
  | nil => simp
  | cons x xs ih =>
    by_cases hp : p x <;> simp [List.filter_cons, hp, ih, contribution]

theorem map_filter_factors (p : Rule → Bool) (f : Rule → String) (l : List Rule) :
    (l.filter p).map f = (l.map (fun r => factorIf (p r) (f r))).flatten := by
  induction l with
  | nil => simp
  | cons x xs ih =>
    by_cases hp : p x <;> simp [List.filter_cons, hp, ih, factorIf]

theorem weightSum_eq (s : FraudDetectionService) (now : Time) (t : Transaction) :
    weightSum s now t =
      contribution (Rule.triggered s now t .highAmount) 0.3 +
      contribution (Rule.triggered s now t .unusualAmount) 0.2 +
      contribution (Rule.triggered s now t .dailyVelocity) 0.2 +
      contribution (Rule.triggered s now t .shortWindowVelocity) 0.25 +
      contribution (Rule.triggered s now t .highRiskCountry) 0.4 +
      contribution (Rule.triggered s now t .geographicInconsistency) 0.3 +
      contribution (Rule.triggered s now t .unusualHour) 0.1 +
      contribution (Rule.triggered s now t .newDevice) 0.15 +
      contribution (Rule.triggered s now t .suspiciousIP) 0.2 +
      contribution (Rule.triggered s now t .highRiskMerchant) 0.15 := by
  unfold weightSum triggeredRules
  rw [sum_filter_weights]
  simp only [Rule.all, List.map_cons, List.map_nil, List.sum_cons, List.sum_nil, Rule.weight]
  ring

theorem factors_eq (s : FraudDetectionService) (now : Time) (t : Transaction) :
    (triggeredRules s now t).map (Rule.factor t) =
      factorIf (Rule.triggered s now t .highAmount) "High transaction amount" ++
      (factorIf (Rule.triggered s now t .unusualAmount)
          "Unusual amount compared to account history" ++
      (factorIf (Rule.triggered s now t .dailyVelocity) "High daily transaction count" ++
      (factorIf (Rule.triggered s now t .shortWindowVelocity)
          "Multiple transactions within short time frame" ++
      (factorIf (Rule.triggered s now t .highRiskCountry)
          ("Transaction from high-risk country: " ++ t.LocationCountry) ++
      (factorIf (Rule.triggered s now t .geographicInconsistency)
          "Geographic inconsistency detected" ++
      (factorIf (Rule.triggered s now t .unusualHour) "Transaction during unusual hours" ++
      (factorIf (Rule.triggered s now t .newDevice) "Transaction from new device" ++
      (factorIf (Rule.triggered s now t .suspiciousIP)
          "Transaction from suspicious IP address" ++
      factorIf (Rule.triggered s now t .highRiskMerchant)
          ("High-risk merchant category: " ++ t.MerchantCategory))))))))) := by
  unfold triggeredRules
  rw [map_filter_factors]
  simp only [Rule.all, List.map_cons, List.map_nil, List.flatten_cons, List.flatten_nil,
    Rule.factor, List.append_nil]

theorem AnalyzeTransaction_valid (s : FraudDetectionService) (now stamp : Time)
    (t : Transaction) (h : t.Validate = none) :
    AnalyzeTransaction s now stamp t =
      { result := some (resultOf s now stamp t), err := none, store := storeAfter s t } := by
  have h1 : (1.0 : ℚ) = 1 := by norm_num
  unfold AnalyzeTransaction
  simp only [h]
  simp only [analyzeAmountRisk_eq s now, analyzeVelocityRisk_eq s now,
    analyzeGeographicRisk_eq s now, analyzeTimeBasedRisk_eq s now,
    analyzeDeviceRisk_eq s now, analyzeMerchantRisk_eq s now, resultOf, storeAfter,
    specRiskScore, weightSum_eq, factors_eq, NewFraudAnalysisResult, updateTransactionHistory,
    history, List.nil_append, List.append_assoc, zero_add, h1, add_assoc]

theorem AnalyzeTransaction_invalid (s : FraudDetectionService) (now stamp : Time)
    (t : Transaction) (e : ValidationError) (h : t.Validate = some e) :
    AnalyzeTransaction s now stamp t = { result := none, err := some e, store := s } := by
  unfold AnalyzeTransaction
  simp only [h]

theorem decision_agrees_with_level_witness :
    (AnalyzeTransaction NewFraudDetectionService noonTime noonTime
      multiFactorTransaction).result =
      some (resultOf NewFraudDetectionService noonTime noonTime multiFactorTransaction) ∧
    ((resultOf NewFraudDetectionService noonTime noonTime multiFactorTransaction).Decision =
        "DECLINE" ↔
      (resultOf NewFraudDetectionService noonTime noonTime multiFactorTransaction).RiskLevel =
        HighRisk) :=
  have h := congrArg Outcome.result
    (AnalyzeTransaction_valid NewFraudDetectionService noonTime noonTime
      multiFactorTransaction (by decide))
  ⟨h, ((decision_agrees_with_level 1).2 _ _ _ _ _ h).2.2⟩

/-! ## Score bounds -/

theorem contribution_nonneg (b : Bool) {w : ℚ} (hw : 0 ≤ w) : 0 ≤ contribution b w := by
  unfold contribution
  split
  · exact hw
  · exact le_rfl

theorem weightSum_nonneg (s : FraudDetectionService) (now : Time) (t : Transaction) :
    0 ≤ weightSum s now t := by
  rw [weightSum_eq]
  have h1 := contribution_nonneg (Rule.triggered s now t .highAmount) (w := 0.3) (by norm_num)
  have h2 := contribution_nonneg (Rule.triggered s now t .unusualAmount) (w := 0.2) (by norm_num)
  have h3 := contribution_nonneg (Rule.triggered s now t .dailyVelocity) (w := 0.2) (by norm_num)
  have h4 := contribution_nonneg (Rule.triggered s now t .shortWindowVelocity) (w := 0.25)
    (by norm_num)
  have h5 := contribution_nonneg (Rule.triggered s now t .highRiskCountry) (w := 0.4)
    (by norm_num)
  have h6 := contribution_nonneg (Rule.triggered s now t .geographicInconsistency) (w := 0.3)
    (by norm_num)
  have h7 := contribution_nonneg (Rule.triggered s now t .unusualHour) (w := 0.1) (by norm_num)
  have h8 := contribution_nonneg (Rule.triggered s now t .newDevice) (w := 0.15) (by norm_num)
  have h9 := contribution_nonneg (Rule.triggered s now t .suspiciousIP) (w := 0.2) (by norm_num)
  have h10 := contribution_nonneg (Rule.triggered s now t .highRiskMerchant) (w := 0.15)
    (by norm_num)
  linarith

theorem recentHistory_of_no_history {s : FraudDetectionService} {accountID : String}
    (h : history s accountID = []) (now : Time) (m : Int) :
    recentHistory s now accountID m = [] := by
  simp [recentHistory, h]

/-- C3: for every store, clock value and transaction that passes Validate, the
RiskScore of the result lies in [0, 1], also when the triggered contributions
sum to more than 1; amount 12000, country XX, category cryptocurrency, hour 2,
a device fingerprint and IP 10.0.0.99 (on an account without history and
within the daily limit) sum to 1.3 and give the score 1.0. -/
theorem riskScore_in_unit_interval (s : FraudDetectionService) (now stamp : Time)
    (t : Transaction) (hv : t.Validate = none) :
    ∃ r, (AnalyzeTransaction s now stamp t).result = some r ∧
      0 ≤ r.RiskScore ∧ r.RiskScore ≤ 1 ∧
      (1 < weightSum s now t → r.RiskScore = 1) ∧
      (t.Amount = 12000 → t.LocationCountry = "XX" → t.MerchantCategory = "cryptocurrency" →
        t.TransactionTimestamp.Hour = 2 → t.DeviceFingerprint ≠ "" →
        t.IPAddress = "10.0.0.99" → history s t.AccountID = [] → newDailyCount s t ≤ 10 →
        weightSum s now t = 1.3 ∧ r.RiskScore = 1.0) := by
  refine ⟨resultOf s now stamp t, ?_, ?_, ?_, ?_, ?_⟩
  · rw [AnalyzeTransaction_valid s now stamp t hv]
  · exact le_min (by norm_num) (weightSum_nonneg s now t)
  · exact min_le_left _ _
  · intro h
    exact min_eq_left h.le
  · intro ha hc hm hh hd hi hhist hcount
    have hw : weightSum s now t = 1.3 := by
      rw [weightSum_eq]
      have hip : ("10.0.0.99".data.take 6 = "10.0.0".data) := by decide
      have hcountry : "XX" ∈ ["XX", "YY", "ZZ"] := by decide
      have hcat : "cryptocurrency" ∈ ["gambling", "adult", "cryptocurrency", "money_transfer"] := by
        decide
      simp only [Rule.triggered, ha, hc, hm, hh, hi, hhist, hip, hcountry, hcat,
        recentHistory_of_no_history hhist, contribution, not_lt.mpr hcount]
      norm_num [hd]
    refine ⟨hw, ?_⟩
    show min 1 (weightSum s now t) = 1.0
    rw [hw]
    norm_num

theorem riskScore_in_unit_interval_witness :
    multiFactorTransaction.Validate = none ∧
    ∃ r, (AnalyzeTransaction NewFraudDetectionService noonTime noonTime
        multiFactorTransaction).result = some r ∧
      0 ≤ r.RiskScore ∧ r.RiskScore ≤ 1 ∧
      weightSum NewFraudDetectionService noonTime multiFactorTransaction = 1.3 ∧
      r.RiskScore = 1.0 := by
  refine ⟨by decide, ?_⟩
  obtain ⟨r, hr, h0, h1, -, hex⟩ :=
    riskScore_in_unit_interval NewFraudDetectionService noonTime noonTime
      multiFactorTransaction (by decide)
  exact ⟨r, hr, h0, h1,
    hex rfl rfl rfl (by decide) (by decide) rfl rfl (by decide)⟩

/-! ## Validation -/

theorem dropWhile_eq_nil_iff_all {α : Type} (p : α → Bool) (l : List α) :
    l.dropWhile p = [] ↔ ∀ x ∈ l, p x = true := by
  induction l with
  | nil => simp
  | cons x xs ih =>
    by_cases hp : p x = true
    · simp [List.dropWhile_cons, hp, ih]
    · simp [List.dropWhile_cons, hp]

theorem dropWhile_all_imp_nil {α : Type} (p : α → Bool) (l : List α)
    (h : ∀ x ∈ l.dropWhile p, p x = true) : l.dropWhile p = [] := by
  induction l with
  | nil => simp
  | cons x xs ih =>
    by_cases hp : p x = true
    · simp only [List.dropWhile_cons, hp, if_true] at h ⊢
      exact ih h
    · simp only [List.dropWhile_cons, hp] at h
      exact absurd (h x (by simp)) hp

theorem TrimSpace_eq_empty_iff (s : String) : TrimSpace s = "" ↔ nonBlank s = false := by
  have hstr : TrimSpace s = "" ↔
      ((s.data.dropWhile isSpace).reverse.dropWhile isSpace).reverse = [] := by
    unfold TrimSpace
    constructor
    · intro h
      exact congrArg String.data h
    · intro h
      rw [h]
  rw [hstr, List.reverse_eq_nil_iff, dropWhile_eq_nil_iff_all]
  have hnb : nonBlank s = false ↔ ∀ x ∈ s.data, isSpace x = true := by
    simp [nonBlank]
  rw [hnb]
  constructor
  · intro h
    have h2 : s.data.dropWhile isSpace = [] :=
      dropWhile_all_imp_nil isSpace s.data (fun x hx => h x (List.mem_reverse.mpr hx))
    exact (dropWhile_eq_nil_iff_all isSpace s.data).mp h2
  · intro h x hx
    have hx2 : x ∈ s.data.dropWhile isSpace := List.mem_reverse.mp hx
    exact h x ((List.dropWhile_sublist isSpace).subset hx2)

/-- What Validate checks: it returns the first failed check as the field of
the error, and no error when every check passes. -/
theorem Validate_field_eq_firstFailedCheck (t : Transaction) :
    t.Validate.map (fun e => e.Field) = firstFailedCheck t := by
  unfold Transaction.Validate firstFailedCheck
  simp only [TrimSpace_eq_empty_iff, not_lt]
  split_ifs <;> rfl

theorem Validate_eq_none_iff (t : Transaction) :
    t.Validate = none ↔
      nonBlank t.TransactionID = true ∧ nonBlank t.AccountID = true ∧
      nonBlank t.MerchantID = true ∧ t.Amount > 0 ∧ len (TrimSpace t.Currency) = 3 := by
  unfold Transaction.Validate
  simp only [TrimSpace_eq_empty_iff]
  split_ifs with h1 h2 h3 h4 h5 <;> simp_all

theorem utf8Len_of_ascii (l : List Char) (h : ∀ c ∈ l, c.toNat < 128) :
    String.utf8Len l = l.length := by
  induction l with
  | nil => rfl
  | cons c cs ih =>
    have hc : c.toNat < 128 := h c (by simp)
    have hs : c.utf8Size = 1 := by
      have : c.val.toNat ≤ 127 := by
        have : c.toNat = c.val.toNat := rfl
        omega
      unfold Char.utf8Size
      have h' : c.val ≤ UInt32.ofNatCore 127 (by decide) := by
        rw [UInt32.le_def]
        exact this
      rw [if_pos h']
    rw [String.utf8Len_cons, ih (fun x hx => h x (by simp [hx])), hs]
    simp

/-- For a currency whose trimmed text is ASCII, Validate accepts exactly the
transactions that satisfy the invariant. -/
theorem Validate_eq_none_iff_Invariant_of_ascii (t : Transaction)
    (h : ∀ c ∈ (TrimSpace t.Currency).data, c.toNat < 128) :
    t.Validate = none ↔ t.Invariant := by
  have hl : len (TrimSpace t.Currency) = trimmedCharacters t.Currency := by
    show String.utf8ByteSize (TrimSpace t.Currency) = (TrimSpace t.Currency).length
    cases hts : TrimSpace t.Currency with
    | mk l =>
      rw [hts] at h
      exact utf8Len_of_ascii l h
  rw [Validate_eq_none_iff, Transaction.Invariant, hl]

/-- C4 (not met by the code): Validate returns no error exactly for the
transactions that satisfy the invariant, the currency having exactly 3
characters after trimming. Validate compares the byte length: a currency of
three two-byte characters satisfies the invariant and is rejected with
the message of the currency check, a currency of one three-byte character
violates it and is accepted. -/
theorem Validate_currency_measured_in_bytes :
    (accentedCurrencyTransaction.Invariant ∧
      trimmedCharacters accentedCurrencyTransaction.Currency = 3 ∧
      accentedCurrencyTransaction.Validate =
        some { Field := "currency", Message := "must be 3 characters" }) ∧
    (¬ euroSignTransaction.Invariant ∧
      trimmedCharacters euroSignTransaction.Currency = 1 ∧
      euroSignTransaction.Validate = none) := by
  decide

/-- C5 (not met by the code): for a transaction that violates an invariant,
Validate returns the error of the first violated one in the order transaction
ID, account ID, amount, currency, merchant ID. With a currency of three
two-byte characters and a blank merchant identifier the first violated
invariant is the merchant identifier, and Validate reports the currency; with
a currency of one three-byte character the currency invariant is violated and
Validate returns no error. A blank account identifier with a non-positive
amount is reported as accountId. -/
theorem Validate_first_violation_by_bytes :
    (firstViolated accentedBlankMerchantTransaction = some "merchantId" ∧
      accentedBlankMerchantTransaction.Validate =
        some { Field := "currency", Message := "must be 3 characters" }) ∧
    (firstViolated euroSignTransaction = some "currency" ∧
      euroSignTransaction.Validate = none) ∧
    (firstViolated blankAccountTransaction = some "accountId" ∧
      blankAccountTransaction.Validate =
        some { Field := "accountId", Message := "cannot be blank" }) := by
  decide

/-! ## Errors and the store -/

/-- C6: `AnalyzeTransaction` returns an error, with a nil result, exactly when
Validate returns an error, and the error is that validation error; for a
transaction that passes Validate it returns a result and no error. -/
theorem AnalyzeTransaction_error_iff_invalid (s : FraudDetectionService) (now stamp : Time)
    (t : Transaction) :
    ((AnalyzeTransaction s now stamp t).err ≠ none ↔ t.Validate ≠ none) ∧
    (AnalyzeTransaction s now stamp t).err = t.Validate ∧
    (t.Validate ≠ none → (AnalyzeTransaction s now stamp t).result = none) ∧
    (t.Validate = none →
      (AnalyzeTransaction s now stamp t).result ≠ none ∧
      (AnalyzeTransaction s now stamp t).err = none) := by
  cases hv : t.Validate with
  | none =>
    rw [AnalyzeTransaction_valid s now stamp t hv]
    simp
  | some e =>
    rw [AnalyzeTransaction_invalid s now stamp t e hv]
    simp

theorem AnalyzeTransaction_error_iff_invalid_witness :
    ((AnalyzeTransaction NewFraudDetectionService noonTime noonTime
        blankAccountTransaction).err =
        some { Field := "accountId", Message := "cannot be blank" } ∧
      (AnalyzeTransaction NewFraudDetectionService noonTime noonTime
        blankAccountTransaction).result = none) ∧
    ((AnalyzeTransaction NewFraudDetectionService noonTime noonTime
        multiFactorTransaction).result ≠ none ∧
      (AnalyzeTransaction NewFraudDetectionService noonTime noonTime
        multiFactorTransaction).err = none) := by
  have hb := AnalyzeTransaction_error_iff_invalid NewFraudDetectionService noonTime noonTime
    blankAccountTransaction
  have hm := AnalyzeTransaction_error_iff_invalid NewFraudDetectionService noonTime noonTime
    multiFactorTransaction
  have hvb : blankAccountTransaction.Validate =
      some { Field := "accountId", Message := "cannot be blank" } := by decide
  refine ⟨⟨hb.2.1.trans hvb, hb.2.2.1 (by decide)⟩, hm.2.2.2 (by decide)⟩

/-- C7: a transaction that fails Validate leaves the store unchanged: the
history map and the daily counter map after the call are those before it. -/
theorem AnalyzeTransaction_invalid_store_unchanged (s : FraudDetectionService)
    (now stamp : Time) (t : Transaction) (hv : t.Validate ≠ none) :
    (AnalyzeTransaction s now stamp t).store = s ∧
    (AnalyzeTransaction s now stamp t).store.accountHistory = s.accountHistory ∧
    (AnalyzeTransaction s now stamp t).store.dailyTransactionCounts =
      s.dailyTransactionCounts := by
  cases hv2 : t.Validate with
  | none => exact absurd hv2 hv
  | some e =>
    rw [AnalyzeTransaction_invalid s now stamp t e hv2]
    exact ⟨rfl, rfl, rfl⟩

theorem AnalyzeTransaction_invalid_store_unchanged_witness :
    blankAccountTransaction.Validate ≠ none ∧
    (AnalyzeTransaction NewFraudDetectionService noonTime noonTime
      blankAccountTransaction).store.accountHistory =
      NewFraudDetectionService.accountHistory ∧
    (AnalyzeTransaction NewFraudDetectionService noonTime noonTime
      blankAccountTransaction).store.dailyTransactionCounts =
      NewFraudDetectionService.dailyTransactionCounts :=
  ⟨by decide,
    (AnalyzeTransaction_invalid_store_unchanged NewFraudDetectionService noonTime noonTime
      blankAccountTransaction (by decide)).2⟩

/-- C8: after a call with a transaction that passes Validate, whatever the
score, level and decision, the history of the transaction's account is the
history before the call with the transaction appended once at the end (one
entry longer, the earlier entries unchanged in place), and the history of every
other account is unchanged. -/
theorem AnalyzeTransaction_appends_history (s : FraudDetectionService) (now stamp : Time)
    (t : Transaction) (hv : t.Validate = none) :
    (AnalyzeTransaction s now stamp t).store.accountHistory t.AccountID =
      some (history s t.AccountID ++ [t]) ∧
    history (AnalyzeTransaction s now stamp t).store t.AccountID =
      history s t.AccountID ++ [t] ∧
    (history (AnalyzeTransaction s now stamp t).store t.AccountID).length =
      (history s t.AccountID).length + 1 ∧
    (∀ i, i < (history s t.AccountID).length →
      (history (AnalyzeTransaction s now stamp t).store t.AccountID).get? i =
        (history s t.AccountID).get? i) ∧
    (history (AnalyzeTransaction s now stamp t).store t.AccountID).get?
      (history s t.AccountID).length = some t ∧
    (∀ a, a ≠ t.AccountID →
      (AnalyzeTransaction s now stamp t).store.accountHistory a = s.accountHistory a) := by
  rw [AnalyzeTransaction_valid s now stamp t hv]
  have hnew : history (storeAfter s t) t.AccountID = history s t.AccountID ++ [t] := by
    simp [history, storeAfter, mapSet]
  refine ⟨?_, hnew, ?_, ?_, ?_, ?_⟩
  · simp [storeAfter, mapSet]
  · simp only [hnew, List.length_append, List.length_singleton]
  · intro i hi
    simp only [hnew, List.get?_eq_getElem?]
    exact List.getElem?_append_left hi
  · simp only [hnew, List.get?_eq_getElem?]
    simp
  · intro a ha
    simp [storeAfter, mapSet, ha]

theorem AnalyzeTransaction_appends_history_witness :
    thirdTransaction.Validate = none ∧
    (AnalyzeTransaction twoEntryStore noonTime noonTime thirdTransaction).store.accountHistory
      "ACC009" = some [earlierTransaction, earlierTransaction, thirdTransaction] ∧
    (AnalyzeTransaction twoEntryStore noonTime noonTime thirdTransaction).store.accountHistory
      "ACC001" = none := by
  have h := AnalyzeTransaction_appends_history twoEntryStore noonTime noonTime
    thirdTransaction (by decide)
  refine ⟨by decide, h.1, ?_⟩
  rw [h.2.2.2.2.2 "ACC001" (by decide)]
  rfl

/-! ## Factor strings -/

theorem Rule.mem_all (r : Rule) : r ∈ Rule.all := by
  cases r <;> simp [Rule.all]

theorem Rule.factor_take (t : Transaction) (r : Rule) :
    (Rule.factor t r).data.take 18 = (Rule.stem r).data.take 18 := by
  cases r
  case highRiskCountry =>
    show ("Transaction from high-risk country: " ++ t.LocationCountry).data.take 18 = _
    rw [String.data_append, List.take_append_of_le_length (by decide)]
    rfl
  case highRiskMerchant =>
    show ("High-risk merchant category: " ++ t.MerchantCategory).data.take 18 = _
    rw [String.data_append, List.take_append_of_le_length (by decide)]
    rfl
  all_goals rfl

theorem Rule.stem_take_injective (r r' : Rule)
    (h : (Rule.stem r).data.take 18 = (Rule.stem r').data.take 18) : r = r' := by
  cases r <;> cases r' <;> first | rfl | (exfalso; revert h; decide)

theorem Rule.factor_injective (t : Transaction) (r r' : Rule)
    (h : Rule.factor t r = Rule.factor t r') : r = r' := by
  apply Rule.stem_take_injective
  rw [← Rule.factor_take t r, ← Rule.factor_take t r', h]

theorem factor_mem_iff (s : FraudDetectionService) (now : Time) (t : Transaction) (r : Rule) :
    Rule.factor t r ∈ (triggeredRules s now t).map (Rule.factor t) ↔
      Rule.triggered s now t r = true := by
  simp only [List.mem_map, triggeredRules, List.mem_filter]
  constructor
  · rintro ⟨r', ⟨-, ht⟩, hf⟩
    rw [← Rule.factor_injective t r' r hf]
    exact ht
  · intro h
    exact ⟨r, ⟨Rule.mem_all r, h⟩, rfl⟩

/-- C9: the rules read the history as it is before the call. For a transaction
that passes Validate the unusual-amount factor is present exactly when the
history of the account before the call is non-empty and the amount exceeds 5
times its mean, the short-window factor exactly when at least 3 entries of the
history before the call are after the clock value minus 5 minutes; with no
recorded history neither factor is present. -/
theorem rules_read_history_before_call (s : FraudDetectionService) (now stamp : Time)
    (t : Transaction) (hv : t.Validate = none) :
    ∃ r, (AnalyzeTransaction s now stamp t).result = some r ∧
      ("Unusual amount compared to account history" ∈ r.RiskFactors ↔
        history s t.AccountID ≠ [] ∧
        t.Amount > 5 * mean ((history s t.AccountID).map (fun e => e.Amount))) ∧
      ("Multiple transactions within short time frame" ∈ r.RiskFactors ↔
        3 ≤ (recentHistory s now t.AccountID 5).length) ∧
      (history s t.AccountID = [] →
        "Unusual amount compared to account history" ∉ r.RiskFactors ∧
        "Multiple transactions within short time frame" ∉ r.RiskFactors) := by
  have hu := factor_mem_iff s now t .unusualAmount
  have hm := factor_mem_iff s now t .shortWindowVelocity
  simp only [Rule.factor, Rule.triggered, decide_eq_true_eq] at hu hm
  refine ⟨resultOf s now stamp t, ?_, hu, hm, ?_⟩
  · rw [AnalyzeTransaction_valid s now stamp t hv]
  · intro hh
    constructor
    · intro hin
      exact (hu.mp hin).1 hh
    · intro hin
      have := hm.mp hin
      rw [recentHistory_of_no_history hh] at this
      simp at this

theorem rules_read_history_before_call_witness :
    thirdTransaction.Validate = none ∧
    (recentHistory (AnalyzeTransaction twoEntryStore noonTime noonTime thirdTransaction).store
      noonTime "ACC009" 5).length = 3 ∧
    ∃ r, (AnalyzeTransaction twoEntryStore noonTime noonTime thirdTransaction).result = some r ∧
      "Unusual amount compared to account history" ∈ r.RiskFactors ∧
      "Multiple transactions within short time frame" ∉ r.RiskFactors := by
  obtain ⟨r, hr, hu, hm, -⟩ :=
    rules_read_history_before_call twoEntryStore noonTime noonTime thirdTransaction (by decide)
  refine ⟨by decide, ?_, r, hr, ?_, ?_⟩
  · rw [AnalyzeTransaction_valid _ _ _ _ (by decide)]
    decide
  · rw [hu]
    refine ⟨by decide, ?_⟩
    show (9000 : ℚ) > 5 * mean [50, 50]
    norm_num [mean]
  · rw [hm]
    decide

/-! ## The score and the rule table -/

theorem take_eq_iff_exists_append (ip : String) :
    ip.data.take 6 = "10.0.0".data ↔ ∃ rest : String, ip = "10.0.0" ++ rest := by
  constructor
  · intro h
    refine ⟨⟨ip.data.drop 6⟩, ?_⟩
    apply String.ext
    rw [String.data_append, ← h]
    exact (List.take_append_drop 6 ip.data).symm
  · rintro ⟨rest, rfl⟩
    rw [String.data_append, List.take_append_of_le_length (by decide)]
    rfl

/-- C10: for every store, clock value and transaction that passes Validate, the
RiskScore of the result is the minimum of 1 and the sum of the weights of the
triggered rules of the table, evaluated on the transaction and the store before
the call: amount above 10000 (0.3); history non-empty and amount above 5 times
the mean of its amounts (0.2); new daily count above 10 (0.2); at least 3
history entries after the clock value minus 5 minutes (0.25); country XX, YY or
ZZ (0.4); geographic inconsistency, never (0.3); hour below 6 or above 23
(0.1); device fingerprint non-empty (0.15); IP address starting with 10.0.0
(0.2); merchant category gambling, adult, cryptocurrency or money_transfer
(0.15). -/
theorem riskScore_eq_clamped_weight_sum (s : FraudDetectionService) (now stamp : Time)
    (t : Transaction) (hv : t.Validate = none) :
    (∃ r, (AnalyzeTransaction s now stamp t).result = some r ∧
      r.RiskScore = min 1 (((Rule.all.filter (Rule.triggered s now t)).map Rule.weight).sum)) ∧
    (Rule.all = [.highAmount, .unusualAmount, .dailyVelocity, .shortWindowVelocity,
      .highRiskCountry, .geographicInconsistency, .unusualHour, .newDevice, .suspiciousIP,
      .highRiskMerchant] ∧ Rule.all.Nodup) ∧
    (Rule.all.map Rule.weight = [0.3, 0.2, 0.2, 0.25, 0.4, 0.3, 0.1, 0.15, 0.2, 0.15]) ∧
    (Rule.triggered s now t .highAmount = true ↔ t.Amount > 10000) ∧
    (Rule.triggered s now t .unusualAmount = true ↔
      history s t.AccountID ≠ [] ∧
      t.Amount > 5 * (((history s t.AccountID).map (fun e => e.Amount)).sum /
        ((history s t.AccountID).length : ℚ))) ∧
    (Rule.triggered s now t .dailyVelocity = true ↔
      (s.dailyTransactionCounts (dailyKey t)).getD 0 + 1 > 10) ∧
    ((AnalyzeTransaction s now stamp t).store.dailyTransactionCounts (dailyKey t) =
      some ((s.dailyTransactionCounts (dailyKey t)).getD 0 + 1)) ∧
    (Rule.triggered s now t .shortWindowVelocity = true ↔
      3 ≤ ((history s t.AccountID).filter (fun e =>
        decide (e.TransactionTimestamp.unixNano > now.unixNano - 5 * 60 * 1000000000))).length) ∧
    (Rule.triggered s now t .highRiskCountry = true ↔
      t.LocationCountry = "XX" ∨ t.LocationCountry = "YY" ∨ t.LocationCountry = "ZZ") ∧
    (Rule.triggered s now t .geographicInconsistency = false) ∧
    (Rule.triggered s now t .unusualHour = true ↔
      t.TransactionTimestamp.Hour < 6 ∨ t.TransactionTimestamp.Hour > 23) ∧
    (Rule.triggered s now t .newDevice = true ↔ t.DeviceFingerprint ≠ "") ∧
    (Rule.triggered s now t .suspiciousIP = true ↔
      ∃ rest : String, t.IPAddress = "10.0.0" ++ rest) ∧
    (Rule.triggered s now t .highRiskMerchant = true ↔
      t.MerchantCategory = "gambling" ∨ t.MerchantCategory = "adult" ∨
      t.MerchantCategory = "cryptocurrency" ∨ t.MerchantCategory = "money_transfer") := by
  refine ⟨⟨resultOf s now stamp t, ?_, rfl⟩, ⟨rfl, by decide⟩, ?_, ?_, ?_, ?_, ?_, ?_, ?_, rfl,
    ?_, ?_, ?_, ?_⟩
  · rw [AnalyzeTransaction_valid s now stamp t hv]
  · simp [Rule.all, Rule.weight]
  · simp [Rule.triggered]
  · simp [Rule.triggered, mean]
  · simp [Rule.triggered, newDailyCount, dailyCount]
  · rw [AnalyzeTransaction_valid s now stamp t hv]
    simp [storeAfter, mapSet, newDailyCount, dailyCount]
  · simp only [Rule.triggered, recentHistory, Minute, decide_eq_true_eq, ge_iff_le]
    norm_num
  · simp [Rule.triggered]
  · simp [Rule.triggered]
  · simp [Rule.triggered]
  · simp only [Rule.triggered, decide_eq_true_eq]
    exact take_eq_iff_exists_append t.IPAddress
  · simp [Rule.triggered]

theorem riskScore_eq_clamped_weight_sum_witness :
    thirdTransaction.Validate = none ∧
    ∃ r, (AnalyzeTransaction twoEntryStore noonTime noonTime thirdTransaction).result = some r ∧
      r.RiskScore = 0.2 := by
  obtain ⟨⟨r, hr, hs⟩, -⟩ :=
    riskScore_eq_clamped_weight_sum twoEntryStore noonTime noonTime thirdTransaction (by decide)
  refine ⟨by decide, r, hr, ?_⟩
  have hhist : history twoEntryStore thirdTransaction.AccountID =
      [earlierTransaction, earlierTransaction] := by decide
  have hrecent : (recentHistory twoEntryStore noonTime thirdTransaction.AccountID 5).length = 2 := by
    decide
  have hcount : newDailyCount twoEntryStore thirdTransaction = 3 := by decide
  have hhour : thirdTransaction.TransactionTimestamp.Hour = 12 := by decide
  have hip : ¬ (thirdTransaction.IPAddress.data.take 6 = "10.0.0".data) := by decide
  have hcountry : thirdTransaction.LocationCountry ∉ ["XX", "YY", "ZZ"] := by decide
  have hcat : thirdTransaction.MerchantCategory ∉
      ["gambling", "adult", "cryptocurrency", "money_transfer"] := by decide
  have hdev : thirdTransaction.DeviceFingerprint = "" := rfl
  have hamt : thirdTransaction.Amount = 9000 := rfl
  have hmean : mean ([earlierTransaction, earlierTransaction].map (fun e => e.Amount)) = 50 := by
    show mean [50, 50] = 50
    norm_num [mean]
  rw [hs]
  show min 1 (weightSum twoEntryStore noonTime thirdTransaction) = 0.2
  rw [weightSum_eq]
  simp only [Rule.triggered, hhist, hrecent, hcount, hhour, hip, hcountry, hcat, hdev, hamt,
    hmean, contribution]
  have hne : ([earlierTransaction, earlierTransaction] : List Transaction) ≠ [] := by simp
  norm_num [hne]

/-! ## Risk factors and recommendations -/

/-- C11: for a transaction that passes Validate the RiskFactors list is in rule
evaluation order: it is the list of the factor strings of the triggered rules
in table order, an order-preserving sub-list without repetition of the fixed
sequence of the ten factor strings, and it contains the string of a rule
exactly when that rule triggered. -/
theorem riskFactors_in_rule_order (s : FraudDetectionService) (now stamp : Time)
    (t : Transaction) (hv : t.Validate = none) :
    ∃ r, (AnalyzeTransaction s now stamp t).result = some r ∧
      r.RiskFactors.Sublist
        ["High transaction amount", "Unusual amount compared to account history",
         "High daily transaction count", "Multiple transactions within short time frame",
         "Transaction from high-risk country: " ++ t.LocationCountry,
         "Geographic inconsistency detected", "Transaction during unusual hours",
         "Transaction from new device", "Transaction from suspicious IP address",
         "High-risk merchant category: " ++ t.MerchantCategory] ∧
      r.RiskFactors.Nodup ∧
      r.RiskFactors = (Rule.all.filter (Rule.triggered s now t)).map (Rule.factor t) ∧
      (∀ rule, Rule.factor t rule ∈ r.RiskFactors ↔ Rule.triggered s now t rule = true) ∧
      Rule.all.map (Rule.factor t) =
        ["High transaction amount", "Unusual amount compared to account history",
         "High daily transaction count", "Multiple transactions within short time frame",
         "Transaction from high-risk country: " ++ t.LocationCountry,
         "Geographic inconsistency detected", "Transaction during unusual hours",
         "Transaction from new device", "Transaction from suspicious IP address",
         "High-risk merchant category: " ++ t.MerchantCategory] := by
  have hall : Rule.all.map (Rule.factor t) =
      ["High transaction amount", "Unusual amount compared to account history",
       "High daily transaction count", "Multiple transactions within short time frame",
       "Transaction from high-risk country: " ++ t.LocationCountry,
       "Geographic inconsistency detected", "Transaction during unusual hours",
       "Transaction from new device", "Transaction from suspicious IP address",
       "High-risk merchant category: " ++ t.MerchantCategory] := rfl
  have hnodup : Rule.all.Nodup := by decide
  refine ⟨resultOf s now stamp t, ?_, ?_, ?_, rfl, ?_, hall⟩
  · rw [AnalyzeTransaction_valid s now stamp t hv]
  · rw [← hall]
    exact (List.filter_sublist Rule.all).map (Rule.factor t)
  · exact (hnodup.filter _).map (fun a b h => Rule.factor_injective t a b h)
  · intro rule
    exact factor_mem_iff s now t rule

theorem riskFactors_in_rule_order_witness :
    multiFactorTransaction.Validate = none ∧
    ∃ r, (AnalyzeTransaction NewFraudDetectionService noonTime noonTime
        multiFactorTransaction).result = some r ∧
      r.RiskFactors =
        ["High transaction amount", "Transaction from high-risk country: XX",
         "Transaction during unusual hours", "Transaction from new device",
         "Transaction from suspicious IP address",
         "High-risk merchant category: cryptocurrency"] := by
  obtain ⟨r, hr, -, -, hf, -⟩ :=
    riskFactors_in_rule_order NewFraudDetectionService noonTime noonTime
      multiFactorTransaction (by decide)
  refine ⟨by decide, r, hr, ?_⟩
  rw [hf]
  decide

theorem generateRecommendations_append (riskLevel : RiskLevel) (recs : List String) :
    generateRecommendations riskLevel recs = recs ++ generateRecommendations riskLevel [] := by
  unfold generateRecommendations
  split_ifs <;> simp

theorem FromScore_mem_levels (s : ℚ) :
    FromScore s = LowRisk ∨ FromScore s = MediumRisk ∨ FromScore s = HighRisk := by
  unfold FromScore
  split_ifs <;> simp

/-- C12: `generateRecommendations` produces the fixed ordered list of the level:
one entry for LowRisk, two for MediumRisk, three for HighRisk; and the
Recommendations of every result of `AnalyzeTransaction` is the list of the
result's RiskLevel, which is one of the three levels. -/
theorem recommendations_fixed_per_level :
    generateRecommendations LowRisk [] = ["Process transaction normally"] ∧
    generateRecommendations MediumRisk [] =
      ["Additional verification recommended", "Monitor account for suspicious activity"] ∧
    generateRecommendations HighRisk [] =
      ["Manual review required", "Contact customer for verification",
       "Consider temporary account restrictions"] ∧
    ∀ (s : FraudDetectionService) (now stamp : Time) (t : Transaction)
      (r : FraudAnalysisResult), (AnalyzeTransaction s now stamp t).result = some r →
      r.Recommendations = generateRecommendations r.RiskLevel [] ∧
      (r.RiskLevel = LowRisk ∨ r.RiskLevel = MediumRisk ∨ r.RiskLevel = HighRisk) ∧
      (r.RiskLevel = LowRisk → r.Recommendations = ["Process transaction normally"]) ∧
      (r.RiskLevel = MediumRisk → r.Recommendations =
        ["Additional verification recommended", "Monitor account for suspicious activity"]) ∧
      (r.RiskLevel = HighRisk → r.Recommendations =
        ["Manual review required", "Contact customer for verification",
         "Consider temporary account restrictions"]) := by
  have h1 : generateRecommendations LowRisk [] = ["Process transaction normally"] := by decide
  have h2 : generateRecommendations MediumRisk [] =
      ["Additional verification recommended", "Monitor account for suspicious activity"] := by
    decide
  have h3 : generateRecommendations HighRisk [] =
      ["Manual review required", "Contact customer for verification",
       "Consider temporary account restrictions"] := by decide
  refine ⟨h1, h2, h3, ?_⟩
  intro s now stamp t r hr
  obtain ⟨-, hl, -, hrec, -⟩ := AnalyzeTransaction_result_fields hr
  refine ⟨hrec, ?_, ?_, ?_, ?_⟩
  · rw [hl]
    exact FromScore_mem_levels r.RiskScore
  · intro h
    rw [hrec, h, h1]
  · intro h
    rw [hrec, h, h2]
  · intro h
    rw [hrec, h, h3]

theorem recommendations_fixed_per_level_witness :
    (AnalyzeTransaction NewFraudDetectionService noonTime noonTime
      multiFactorTransaction).result =
      some (resultOf NewFraudDetectionService noonTime noonTime multiFactorTransaction) ∧
    (resultOf NewFraudDetectionService noonTime noonTime
      multiFactorTransaction).Recommendations =
      generateRecommendations
        (resultOf NewFraudDetectionService noonTime noonTime multiFactorTransaction).RiskLevel
        [] :=
  have h := congrArg Outcome.result
    (AnalyzeTransaction_valid NewFraudDetectionService noonTime noonTime
      multiFactorTransaction (by decide))
  ⟨h, (recommendations_fixed_per_level.2.2.2 _ _ _ _ _ h).1⟩

/-! ## Scenarios -/

/-- The rules other than the amount, country, device and merchant ones do not
trigger on an account without history, within the daily limit, at a usual hour
and from an address that is not suspicious. -/
theorem quiet_rules_not_triggered (s : FraudDetectionService) (now : Time) (t : Transaction)
    (hhist : history s t.AccountID = []) (hday : dailyCount s t = 0)
    (hhour : 6 ≤ t.TransactionTimestamp.Hour ∧ t.TransactionTimestamp.Hour ≤ 23)
    (hip : ¬ ∃ rest : String, t.IPAddress = "10.0.0" ++ rest) :
    Rule.triggered s now t .unusualAmount = false ∧
    Rule.triggered s now t .dailyVelocity = false ∧
    Rule.triggered s now t .shortWindowVelocity = false ∧
    Rule.triggered s now t .geographicInconsistency = false ∧
    Rule.triggered s now t .unusualHour = false ∧
    Rule.triggered s now t .suspiciousIP = false := by
  have hip2 : ¬ (t.IPAddress.data.take 6 = "10.0.0".data) :=
    fun h => hip ((take_eq_iff_exists_append t.IPAddress).mp h)
  refine ⟨?_, ?_, ?_, rfl, ?_, ?_⟩
  · simp [Rule.triggered, hhist]
  · simp [Rule.triggered, newDailyCount, hday]
  · simp [Rule.triggered, recentHistory_of_no_history hhist]
  · simp only [Rule.triggered, decide_eq_false_iff_not, not_or, not_lt]
    exact hhour
  · simp only [Rule.triggered, decide_eq_false_iff_not]
    exact hip2

/-- C13: a transaction that passes Validate and is benign in every respect
(amount at most 10000, account without recorded history and without earlier
transaction that day, country and merchant category outside the denylists,
usual hour, no device fingerprint, address not suspicious) gets a RiskScore
below 0.3, LowRisk, APPROVE, no risk factors and its own TransactionID. -/
theorem benign_transaction_approved (s : FraudDetectionService) (now stamp : Time)
    (t : Transaction) (hv : t.Validate = none) (hamt : t.Amount ≤ 10000)
    (hhist : history s t.AccountID = []) (hday : dailyCount s t = 0)
    (hcountry : t.LocationCountry ∉ ["XX", "YY", "ZZ"])
    (hhour : 6 ≤ t.TransactionTimestamp.Hour ∧ t.TransactionTimestamp.Hour ≤ 23)
    (hdev : t.DeviceFingerprint = "")
    (hip : ¬ ∃ rest : String, t.IPAddress = "10.0.0" ++ rest)
    (hcat : t.MerchantCategory ∉ ["gambling", "adult", "cryptocurrency", "money_transfer"]) :
    ∃ r, (AnalyzeTransaction s now stamp t).result = some r ∧
      r.RiskScore < 0.3 ∧ r.RiskLevel = LowRisk ∧ r.Decision = "APPROVE" ∧
      r.RiskFactors = [] ∧ r.TransactionID = t.TransactionID := by
  obtain ⟨h2, h3, h4, h6, h7, h9⟩ := quiet_rules_not_triggered s now t hhist hday hhour hip
  have h1 : Rule.triggered s now t .highAmount = false := by
    simp [Rule.triggered, hamt]
  have h5 : Rule.triggered s now t .highRiskCountry = false := by
    simp only [Rule.triggered, decide_eq_false_iff_not]
    exact hcountry
  have h8 : Rule.triggered s now t .newDevice = false := by
    simp [Rule.triggered, hdev]
  have h10 : Rule.triggered s now t .highRiskMerchant = false := by
    simp only [Rule.triggered, decide_eq_false_iff_not]
    exact hcat
  have hrules : triggeredRules s now t = [] := by
    simp [triggeredRules, Rule.all, List.filter, h1, h2, h3, h4, h5, h6, h7, h8, h9, h10]
  have hscore : specRiskScore s now t = 0 := by
    simp [specRiskScore, weightSum, hrules]
  refine ⟨resultOf s now stamp t, ?_, ?_, ?_, ?_, ?_, rfl⟩
  · rw [AnalyzeTransaction_valid s now stamp t hv]
  · show specRiskScore s now t < 0.3
    rw [hscore]
    norm_num
  · show FromScore (specRiskScore s now t) = LowRisk
    rw [hscore]
    exact FromScore_low (by norm_num)
  · show determineDecision (specRiskScore s now t) = "APPROVE"
    rw [hscore]
    exact determineDecision_low (by norm_num)
  · show (triggeredRules s now t).map (Rule.factor t) = []
    rw [hrules]
    rfl

theorem benign_transaction_approved_witness :
    lowRiskTransaction.Validate = none ∧
    ∃ r, (AnalyzeTransaction NewFraudDetectionService noonTime noonTime
        lowRiskTransaction).result = some r ∧
      r.RiskScore < 0.3 ∧ r.RiskLevel = LowRisk ∧ r.Decision = "APPROVE" ∧
      r.RiskFactors = [] ∧ r.TransactionID = "TXN001" := by
  have hip : ¬ ∃ rest : String, lowRiskTransaction.IPAddress = "10.0.0" ++ rest := by
    rw [← take_eq_iff_exists_append]
    decide
  exact ⟨by decide,
    benign_transaction_approved NewFraudDetectionService noonTime noonTime lowRiskTransaction
      (by decide) (by decide) rfl rfl (by decide) (by decide) rfl hip (by decide)⟩

theorem contribution_true (w : ℚ) : contribution true w = w := rfl

theorem contribution_false (w : ℚ) : contribution false w = 0 := rfl

/-- The weight sum is at least the total weight of the amount, country and
merchant rules that trigger. -/
theorem weightSum_lower_bound (s : FraudDetectionService) (now : Time) (t : Transaction) :
    contribution (Rule.triggered s now t .highAmount) 0.3 +
      contribution (Rule.triggered s now t .highRiskCountry) 0.4 +
      contribution (Rule.triggered s now t .highRiskMerchant) 0.15 ≤ weightSum s now t := by
  rw [weightSum_eq]
  have h2 := contribution_nonneg (Rule.triggered s now t .unusualAmount) (w := 0.2) (by norm_num)
  have h3 := contribution_nonneg (Rule.triggered s now t .dailyVelocity) (w := 0.2) (by norm_num)
  have h4 := contribution_nonneg (Rule.triggered s now t .shortWindowVelocity) (w := 0.25)
    (by norm_num)
  have h6 := contribution_nonneg (Rule.triggered s now t .geographicInconsistency) (w := 0.3)
    (by norm_num)
  have h7 := contribution_nonneg (Rule.triggered s now t .unusualHour) (w := 0.1) (by norm_num)
  have h8 := contribution_nonneg (Rule.triggered s now t .newDevice) (w := 0.15) (by norm_num)
  have h9 := contribution_nonneg (Rule.triggered s now t .suspiciousIP) (w := 0.2) (by norm_num)
  linarith

theorem not_low_of_threshold {x : ℚ} (h : 0.3 ≤ x) :
    FromScore x ≠ LowRisk ∧ determineDecision x ≠ "APPROVE" := by
  rcases lt_or_le x 0.7 with h7 | h7
  · rw [FromScore_medium h h7, determineDecision_medium h h7]
    decide
  · rw [FromScore_high h7, determineDecision_high h7]
    decide

theorem high_of_threshold {x : ℚ} (h : 0.7 ≤ x) :
    FromScore x = HighRisk ∧ determineDecision x = "DECLINE" :=
  ⟨FromScore_high h, determineDecision_high h⟩

/-- C14: for every store and every transaction that passes Validate, an amount
above 10000 puts the factor High transaction amount into the result and makes
the RiskScore at least 0.3, so the result is neither LowRisk nor APPROVE; with
an amount of at most 10000 the factor is absent. -/
theorem high_amount_flagged (s : FraudDetectionService) (now stamp : Time)
    (t : Transaction) (hv : t.Validate = none) :
    ∃ r, (AnalyzeTransaction s now stamp t).result = some r ∧
      (t.Amount > 10000 →
        "High transaction amount" ∈ r.RiskFactors ∧ r.RiskScore ≥ 0.3 ∧
        r.RiskLevel ≠ LowRisk ∧ r.Decision ≠ "APPROVE") ∧
      (t.Amount ≤ 10000 → "High transaction amount" ∉ r.RiskFactors) := by
  have hmem := factor_mem_iff s now t .highAmount
  simp only [Rule.factor, Rule.triggered, decide_eq_true_eq] at hmem
  refine ⟨resultOf s now stamp t, ?_, ?_, ?_⟩
  · rw [AnalyzeTransaction_valid s now stamp t hv]
  · intro hamt
    have htrig : Rule.triggered s now t .highAmount = true := by
      simp [Rule.triggered, hamt]
    have hlow := weightSum_lower_bound s now t
    rw [htrig, contribution_true] at hlow
    have h5 := contribution_nonneg (Rule.triggered s now t .highRiskCountry) (w := 0.4)
      (by norm_num)
    have h10 := contribution_nonneg (Rule.triggered s now t .highRiskMerchant) (w := 0.15)
      (by norm_num)
    have hscore : (0.3 : ℚ) ≤ specRiskScore s now t :=
      le_min (by norm_num) (by linarith)
    exact ⟨hmem.mpr hamt, hscore, (not_low_of_threshold hscore).1,
      (not_low_of_threshold hscore).2⟩
  · intro hamt hin
    exact absurd (hmem.mp hin) (not_lt.mpr hamt)

theorem high_amount_flagged_witness :
    highAmountTransaction.Validate = none ∧
    ∃ r, (AnalyzeTransaction NewFraudDetectionService noonTime noonTime
        highAmountTransaction).result = some r ∧
      "High transaction amount" ∈ r.RiskFactors ∧ r.RiskScore ≥ 0.3 ∧
      r.RiskLevel ≠ LowRisk ∧ r.Decision ≠ "APPROVE" := by
  obtain ⟨r, hr, hhigh, -⟩ :=
    high_amount_flagged NewFraudDetectionService noonTime noonTime highAmountTransaction
      (by decide)
  exact ⟨by decide, r, hr, hhigh (by decide)⟩

/-- C15: `analyzeGeographicRisk` contributes exactly 0.4 and appends exactly the
factor of the country when the country is XX, YY or ZZ, and contributes 0 and
appends nothing otherwise; a transaction that passes Validate, has country XX
and is benign in everything else has RiskScore exactly 0.4. -/
theorem geographic_risk_exact (s : FraudDetectionService) (now stamp : Time)
    (t : Transaction) (fs : List String) :
    (t.LocationCountry ∈ ["XX", "YY", "ZZ"] →
      analyzeGeographicRisk t fs =
        (0.4, fs ++ ["Transaction from high-risk country: " ++ t.LocationCountry])) ∧
    (t.LocationCountry ∉ ["XX", "YY", "ZZ"] → analyzeGeographicRisk t fs = (0, fs)) ∧
    (t.Validate = none → t.LocationCountry = "XX" → t.Amount ≤ 10000 →
      history s t.AccountID = [] → dailyCount s t = 0 →
      (6 ≤ t.TransactionTimestamp.Hour ∧ t.TransactionTimestamp.Hour ≤ 23) →
      t.DeviceFingerprint = "" → (¬ ∃ rest : String, t.IPAddress = "10.0.0" ++ rest) →
      t.MerchantCategory ∉ ["gambling", "adult", "cryptocurrency", "money_transfer"] →
      ∃ r, (AnalyzeTransaction s now stamp t).result = some r ∧ r.RiskScore = 0.4 ∧
        r.RiskFactors = ["Transaction from high-risk country: XX"]) := by
  refine ⟨?_, ?_, ?_⟩
  · intro hc
    have htrig : Rule.triggered s now t .highRiskCountry = true := by
      simp only [Rule.triggered, decide_eq_true_eq]
      exact hc
    rw [analyzeGeographicRisk_eq s now t fs, htrig]
    simp [Rule.triggered, contribution, factorIf]
  · intro hc
    have htrig : Rule.triggered s now t .highRiskCountry = false := by
      simp only [Rule.triggered, decide_eq_false_iff_not]
      exact hc
    rw [analyzeGeographicRisk_eq s now t fs, htrig]
    simp [Rule.triggered, contribution, factorIf]
  · intro hv hc hamt hhist hday hhour hdev hip hcat
    obtain ⟨h2, h3, h4, h6, h7, h9⟩ := quiet_rules_not_triggered s now t hhist hday hhour hip
    have h1 : Rule.triggered s now t .highAmount = false := by
      simp [Rule.triggered, hamt]
    have h5 : Rule.triggered s now t .highRiskCountry = true := by
      simp [Rule.triggered, hc]
    have h8 : Rule.triggered s now t .newDevice = false := by
      simp [Rule.triggered, hdev]
    have h10 : Rule.triggered s now t .highRiskMerchant = false := by
      simp only [Rule.triggered, decide_eq_false_iff_not]
      exact hcat
    have hrules : triggeredRules s now t = [.highRiskCountry] := by
      simp [triggeredRules, Rule.all, List.filter, h1, h2, h3, h4, h5, h6, h7, h8, h9, h10]
    refine ⟨resultOf s now stamp t, ?_, ?_, ?_⟩
    · rw [AnalyzeTransaction_valid s now stamp t hv]
    · show min 1 (weightSum s now t) = 0.4
      rw [weightSum, hrules]
      norm_num [Rule.weight]
    · show (triggeredRules s now t).map (Rule.factor t) = _
      rw [hrules]
      simp [Rule.factor, hc]

theorem geographic_risk_exact_witness :
    highRiskCountryTransaction.LocationCountry ∈ ["XX", "YY", "ZZ"] ∧
    analyzeGeographicRisk highRiskCountryTransaction [] =
      (0.4, [] ++ ["Transaction from high-risk country: " ++
        highRiskCountryTransaction.LocationCountry]) ∧
    lowRiskTransaction.LocationCountry ∉ ["XX", "YY", "ZZ"] ∧
    analyzeGeographicRisk lowRiskTransaction [] = (0, []) ∧
    ∃ r, (AnalyzeTransaction NewFraudDetectionService noonTime noonTime
        highRiskCountryTransaction).result = some r ∧ r.RiskScore = 0.4 ∧
      r.RiskFactors = ["Transaction from high-risk country: XX"] := by
  have hip : ¬ ∃ rest : String, highRiskCountryTransaction.IPAddress = "10.0.0" ++ rest := by
    rw [← take_eq_iff_exists_append]
    decide
  have h := geographic_risk_exact NewFraudDetectionService noonTime noonTime
    highRiskCountryTransaction []
  have hl := geographic_risk_exact NewFraudDetectionService noonTime noonTime
    lowRiskTransaction []
  exact ⟨by decide, h.1 (by decide), by decide, hl.2.1 (by decide),
    h.2.2 (by decide) rfl (by decide) rfl rfl (by decide) rfl hip (by decide)⟩

/-- C16: for every store, a transaction that passes Validate with an amount
above 10000, a denylisted country and a denylisted merchant category gets a
RiskScore of at least 0.7, HighRisk, DECLINE and recommendations that include
Manual review required. -/
theorem high_risk_declined (s : FraudDetectionService) (now stamp : Time)
    (t : Transaction) (hv : t.Validate = none) (hamt : t.Amount > 10000)
    (hcountry : t.LocationCountry ∈ ["XX", "YY", "ZZ"])
    (hcat : t.MerchantCategory ∈ ["gambling", "adult", "cryptocurrency", "money_transfer"]) :
    ∃ r, (AnalyzeTransaction s now stamp t).result = some r ∧
      r.RiskScore ≥ 0.7 ∧ r.RiskLevel = HighRisk ∧ r.Decision = "DECLINE" ∧
      "Manual review required" ∈ r.Recommendations := by
  have h1 : Rule.triggered s now t .highAmount = true := by
    simp [Rule.triggered, hamt]
  have h5 : Rule.triggered s now t .highRiskCountry = true := by
    simp only [Rule.triggered, decide_eq_true_eq]
    exact hcountry
  have h10 : Rule.triggered s now t .highRiskMerchant = true := by
    simp only [Rule.triggered, decide_eq_true_eq]
    exact hcat
  have hlow := weightSum_lower_bound s now t
  rw [h1, h5, h10, contribution_true, contribution_true, contribution_true] at hlow
  have hscore : (0.7 : ℚ) ≤ specRiskScore s now t :=
    le_min (by norm_num) (by norm_num at hlow ⊢; linarith)
  obtain ⟨hlevel, hdec⟩ := high_of_threshold hscore
  refine ⟨resultOf s now stamp t, ?_, hscore, hlevel, hdec, ?_⟩
  · rw [AnalyzeTransaction_valid s now stamp t hv]
  · show "Manual review required" ∈
      generateRecommendations (FromScore (specRiskScore s now t)) []
    rw [hlevel]
    decide

theorem high_risk_declined_witness :
    declinedTransaction.Validate = none ∧
    ∃ r, (AnalyzeTransaction NewFraudDetectionService noonTime noonTime
        declinedTransaction).result = some r ∧
      r.RiskScore ≥ 0.7 ∧ r.RiskLevel = HighRisk ∧ r.Decision = "DECLINE" ∧
      "Manual review required" ∈ r.Recommendations :=
  ⟨by decide,
    high_risk_declined NewFraudDetectionService noonTime noonTime declinedTransaction
      (by decide) (by decide) (by decide) (by decide)⟩

/-! ## The key of the daily counter -/

theorem digitChar_ne_colon (n : Nat) (h : n < 10) : Nat.digitChar n ≠ ':' := by
  interval_cases n <;> decide

theorem toDigitsCore_no_colon (fuel n : Nat) (ds : List Char) (h : ∀ c ∈ ds, c ≠ ':') :
    ∀ c ∈ Nat.toDigitsCore 10 fuel n ds, c ≠ ':' := by
  induction fuel generalizing n ds with
  | zero => exact h
  | succ fuel ih =>
    have hd : ∀ c ∈ Nat.digitChar (n % 10) :: ds, c ≠ ':' := by
      intro c hc
      rcases List.mem_cons.mp hc with rfl | hc
      · exact digitChar_ne_colon _ (Nat.mod_lt _ (by decide))
      · exact h c hc
    unfold Nat.toDigitsCore
    dsimp only
    split_ifs
    · exact hd
    · exact ih (n / 10) _ hd

theorem appendInt_no_colon (x : Int) (width : Nat) : ':' ∉ (appendInt x width).data := by
  have hbody : ∀ c ∈ List.replicate (width - (Nat.toDigits 10 x.natAbs).length) '0' ++
      Nat.toDigits 10 x.natAbs, c ≠ ':' := by
    intro c hc
    rcases List.mem_append.mp hc with hc | hc
    · rw [(List.mem_replicate.mp hc).2]
      decide
    · exact toDigitsCore_no_colon _ _ [] (fun _ h => absurd h (List.not_mem_nil _)) c hc
  intro hmem
  unfold appendInt at hmem
  simp only at hmem
  split_ifs at hmem
  · rcases List.mem_cons.mp hmem with h | h
    · exact absurd h (by decide)
    · exact hbody _ h rfl
  · exact hbody _ hmem rfl

theorem FormatDate_no_colon (t : Time) : ':' ∉ t.FormatDate.data := by
  unfold Time.FormatDate
  simp only [String.data_append, List.mem_append, not_or]
  refine ⟨⟨⟨⟨appendInt_no_colon _ _, by decide⟩, appendInt_no_colon _ _⟩, by decide⟩,
    appendInt_no_colon _ _⟩

/-- Two texts split at a separator after which the separator does not occur
again are equal only if both parts are equal. -/
theorem split_at_last_unique {α : Type} (c : α) :
    ∀ (d d' u u' : List α), c ∉ d → c ∉ d' → d ++ c :: u = d' ++ c :: u' → d = d' ∧ u = u'
  | [], [], u, u', _, _, h => ⟨rfl, by simpa using h⟩
  | [], b :: d', u, u', _, hd', h => by
    simp only [List.nil_append, List.cons_append, List.cons.injEq] at h
    exact absurd (h.1 ▸ List.mem_cons_self _ _) hd'
  | a :: d, [], u, u', hd, _, h => by
    simp only [List.nil_append, List.cons_append, List.cons.injEq] at h
    exact absurd (h.1 ▸ List.mem_cons_self _ _) hd
  | a :: d, b :: d', u, u', hd, hd', h => by
    simp only [List.cons_append, List.cons.injEq] at h
    have ih := split_at_last_unique c d d' u u'
      (fun hc => hd (List.mem_cons_of_mem _ hc)) (fun hc => hd' (List.mem_cons_of_mem _ hc)) h.2
    exact ⟨by rw [h.1, ih.1], ih.2⟩

/-- The key of the daily counter determines the account and the day. -/
theorem dailyKey_eq_iff (t t' : Transaction) :
    dailyKey t = dailyKey t' ↔
      t.AccountID = t'.AccountID ∧
      t.TransactionTimestamp.FormatDate = t'.TransactionTimestamp.FormatDate := by
  constructor
  · intro h
    have hdata := congrArg (fun k => k.data.reverse) h
    simp only [dailyKey, String.data_append, List.reverse_append] at hdata
    have hcolon : (":" : String).data.reverse = [':'] := rfl
    rw [hcolon] at hdata
    simp only [List.singleton_append, List.append_assoc] at hdata
    have hsplit := split_at_last_unique ':' _ _ _ _
      (fun hc => FormatDate_no_colon t.TransactionTimestamp (List.mem_reverse.mp hc))
      (fun hc => FormatDate_no_colon t'.TransactionTimestamp (List.mem_reverse.mp hc)) hdata
    exact ⟨String.ext (List.reverse_injective hsplit.2),
      String.ext (List.reverse_injective hsplit.1)⟩
  · rintro ⟨ha, hd⟩
    simp only [dailyKey, ha, hd]

/-! ## Sequences of calls -/

theorem history_storeAfter (s : FraudDetectionService) (t : Transaction) (a : String) :
    history (storeAfter s t) a =
      if a = t.AccountID then history s a ++ [t] else history s a := by
  by_cases h : a = t.AccountID
  · simp [h, history, storeAfter, mapSet]
  · simp [h, history, storeAfter, mapSet]

theorem shortWindow_mem_iff (s : FraudDetectionService) (now stamp : Time) (t : Transaction) :
    "Multiple transactions within short time frame" ∈ (resultOf s now stamp t).RiskFactors ↔
      3 ≤ (recentHistory s now t.AccountID 5).length := by
  have h := factor_mem_iff s now t .shortWindowVelocity
  simp only [Rule.factor, Rule.triggered, decide_eq_true_eq] at h
  exact h

theorem hasFactor_shortWindow (s : FraudDetectionService) (c : Call)
    (hv : c.transaction.Validate = none) :
    hasFactor "Multiple transactions within short time frame"
      (AnalyzeTransaction s c.now c.stamp c.transaction) =
      some (decide (3 ≤ (recentHistory s c.now c.transaction.AccountID 5).length)) := by
  rw [AnalyzeTransaction_valid s c.now c.stamp c.transaction hv]
  simp only [hasFactor, Option.map_some', shortWindow_mem_iff]

theorem store_of_valid (s : FraudDetectionService) (c : Call)
    (hv : c.transaction.Validate = none) :
    (AnalyzeTransaction s c.now c.stamp c.transaction).store = storeAfter s c.transaction := by
  rw [AnalyzeTransaction_valid s c.now c.stamp c.transaction hv]

theorem filter_length_of_all {α : Type} (p : α → Bool) (l : List α) (h : ∀ x ∈ l, p x = true) :
    (l.filter p).length = l.length := by
  rw [List.filter_eq_self.mpr h]

/-- C17: starting from a store without history for an account, five
transactions of that account that pass Validate are analysed one after another,
the first three with timestamps inside the 5-minute window of the fourth
evaluation and the first four inside that of the fifth; the results of the
fourth and fifth call contain Multiple transactions within short time frame,
those of the first three do not. -/
theorem burst_flagged_from_fourth (s : FraudDetectionService) (acct : String)
    (c1 c2 c3 c4 c5 : Call) (hhist : history s acct = [])
    (hvalid : ∀ c ∈ [c1, c2, c3, c4, c5],
      c.transaction.Validate = none ∧ c.transaction.AccountID = acct)
    (hw4 : ∀ c ∈ [c1, c2, c3],
      c.transaction.TransactionTimestamp.unixNano > c4.now.unixNano - 5 * Minute)
    (hw5 : ∀ c ∈ [c1, c2, c3, c4],
      c.transaction.TransactionTimestamp.unixNano > c5.now.unixNano - 5 * Minute) :
    (analyzeAll s [c1, c2, c3, c4, c5]).map
        (hasFactor "Multiple transactions within short time frame") =
      [some false, some false, some false, some true, some true] := by
  obtain ⟨hv1, ha1⟩ := hvalid c1 (by simp)
  obtain ⟨hv2, ha2⟩ := hvalid c2 (by simp)
  obtain ⟨hv3, ha3⟩ := hvalid c3 (by simp)
  obtain ⟨hv4, ha4⟩ := hvalid c4 (by simp)
  obtain ⟨hv5, ha5⟩ := hvalid c5 (by simp)
  have hh1 : history (storeAfter s c1.transaction) acct = [c1.transaction] := by
    rw [history_storeAfter, ha1, if_pos rfl, hhist]
    rfl
  have hh2 : history (storeAfter (storeAfter s c1.transaction) c2.transaction) acct =
      [c1.transaction, c2.transaction] := by
    rw [history_storeAfter, ha2, if_pos rfl, hh1]
    rfl
  have hh3 : history (storeAfter (storeAfter (storeAfter s c1.transaction) c2.transaction)
      c3.transaction) acct = [c1.transaction, c2.transaction, c3.transaction] := by
    rw [history_storeAfter, ha3, if_pos rfl, hh2]
    rfl
  have hh4 : history (storeAfter (storeAfter (storeAfter (storeAfter s c1.transaction)
      c2.transaction) c3.transaction) c4.transaction) acct =
      [c1.transaction, c2.transaction, c3.transaction, c4.transaction] := by
    rw [history_storeAfter, ha4, if_pos rfl, hh3]
    rfl
  have hr4 : ∀ e ∈ [c1.transaction, c2.transaction, c3.transaction],
      decide (e.TransactionTimestamp.unixNano > c4.now.unixNano - 5 * Minute) = true := by
    intro e he
    simp only [List.mem_cons, List.mem_singleton, List.not_mem_nil, or_false] at he
    rcases he with rfl | rfl | rfl
    · exact decide_eq_true (hw4 c1 (by simp))
    · exact decide_eq_true (hw4 c2 (by simp))
    · exact decide_eq_true (hw4 c3 (by simp))
  have hr5 : ∀ e ∈ [c1.transaction, c2.transaction, c3.transaction, c4.transaction],
      decide (e.TransactionTimestamp.unixNano > c5.now.unixNano - 5 * Minute) = true := by
    intro e he
    simp only [List.mem_cons, List.mem_singleton, List.not_mem_nil, or_false] at he
    rcases he with rfl | rfl | rfl | rfl
    · exact decide_eq_true (hw5 c1 (by simp))
    · exact decide_eq_true (hw5 c2 (by simp))
    · exact decide_eq_true (hw5 c3 (by simp))
    · exact decide_eq_true (hw5 c4 (by simp))
  have hlen : ∀ (st : FraudDetectionService) (now : Time) (l : List Transaction),
      history st acct = l → l.length < 3 → ¬ 3 ≤ (recentHistory st now acct 5).length := by
    intro st now l hl hlt
    unfold recentHistory
    rw [hl]
    have := List.length_filter_le
      (fun e => decide (e.TransactionTimestamp.unixNano > now.unixNano - 5 * Minute)) l
    omega
  simp only [analyzeAll, List.map_cons, List.map_nil, store_of_valid _ _ hv1,
    store_of_valid _ _ hv2, store_of_valid _ _ hv3, store_of_valid _ _ hv4,
    hasFactor_shortWindow _ _ hv1, hasFactor_shortWindow _ _ hv2,
    hasFactor_shortWindow _ _ hv3, hasFactor_shortWindow _ _ hv4,
    hasFactor_shortWindow _ _ hv5, ha1, ha2, ha3, ha4, ha5]
  have e1 := hlen s c1.now [] hhist (by simp)
  have e2 := hlen _ c2.now _ hh1 (by simp)
  have e3 := hlen _ c3.now _ hh2 (by simp)
  have e4 : 3 ≤ (recentHistory (storeAfter (storeAfter (storeAfter s c1.transaction)
      c2.transaction) c3.transaction) c4.now acct 5).length := by
    unfold recentHistory
    rw [hh3, filter_length_of_all _ _ hr4]
    simp
  have e5 : 3 ≤ (recentHistory (storeAfter (storeAfter (storeAfter (storeAfter s
      c1.transaction) c2.transaction) c3.transaction) c4.transaction) c5.now acct 5).length := by
    unfold recentHistory
    rw [hh4, filter_length_of_all _ _ hr5]
    simp
  simp only [e1, e2, e3, e4, e5, decide_True, decide_False]

theorem burst_flagged_from_fourth_witness :
    (analyzeAll NewFraudDetectionService
        [burstCall "B01", burstCall "B02", burstCall "B03", burstCall "B04",
         burstCall "B05"]).map
        (hasFactor "Multiple transactions within short time frame") =
      [some false, some false, some false, some true, some true] :=
  burst_flagged_from_fourth NewFraudDetectionService "ACC017"
    (burstCall "B01") (burstCall "B02") (burstCall "B03") (burstCall "B04") (burstCall "B05")
    rfl (by decide) (by decide) (by decide)

theorem dailyCount_storeAfter (s : FraudDetectionService) (t' t : Transaction) :
    dailyCount (storeAfter s t') t =
      if t.AccountID = t'.AccountID ∧
          t.TransactionTimestamp.FormatDate = t'.TransactionTimestamp.FormatDate
      then dailyCount s t + 1 else dailyCount s t := by
  by_cases hk : dailyKey t = dailyKey t'
  · have h := (dailyKey_eq_iff t t').mp hk
    rw [if_pos h]
    simp [dailyCount, storeAfter, mapSet, newDailyCount, hk]
  · have h : ¬ (t.AccountID = t'.AccountID ∧
        t.TransactionTimestamp.FormatDate = t'.TransactionTimestamp.FormatDate) :=
      fun h => hk ((dailyKey_eq_iff t t').mpr h)
    rw [if_neg h]
    simp [dailyCount, storeAfter, mapSet, hk]

theorem dailyCount_after_call (s : FraudDetectionService) (c : Call) (t : Transaction) :
    dailyCount (AnalyzeTransaction s c.now c.stamp c.transaction).store t =
      dailyCount s t + if countsFor t c = true then 1 else 0 := by
  cases hv : c.transaction.Validate with
  | some e =>
    rw [AnalyzeTransaction_invalid s c.now c.stamp c.transaction e hv]
    simp [countsFor, hv]
  | none =>
    rw [store_of_valid s c hv, dailyCount_storeAfter]
    by_cases h : t.AccountID = c.transaction.AccountID ∧
        t.TransactionTimestamp.FormatDate = c.transaction.TransactionTimestamp.FormatDate
    · have hc : countsFor t c = true := by
        simp [countsFor, hv, h.1, h.2]
      rw [if_pos h, if_pos hc]
    · have hc : ¬ countsFor t c = true := by
        intro hc
        simp only [countsFor, Bool.and_eq_true, decide_eq_true_eq] at hc
        exact h ⟨hc.1.2.symm, hc.2.symm⟩
      rw [if_neg h, if_neg hc]
      simp

theorem dailyCount_runCalls (s : FraudDetectionService) (pre : List Call) (t : Transaction) :
    dailyCount (runCalls s pre) t = dailyCount s t + ((pre.filter (countsFor t)).length : Int) := by
  induction pre generalizing s with
  | nil => simp [runCalls]
  | cons c cs ih =>
    rw [runCalls, ih, dailyCount_after_call]
    by_cases hc : countsFor t c = true
    · simp only [hc, if_true, List.filter_cons_of_pos, List.length_cons]
      push_cast
      ring
    · simp only [hc, if_false, List.filter_cons_of_neg, Bool.false_eq_true,
        not_false_eq_true, add_zero]

/-- C18: the daily counter is incremented and read in one step that returns the
new count. After any sequence of calls on a fresh store, a transaction that
passes Validate observes the count k, one more than the number of earlier
successful calls with the same account and the same calendar day of the
transaction's own timestamp; the store keeps k for that account and day, and
the result contains High daily transaction count exactly when k exceeds 10. -/
theorem daily_count_includes_current (pre : List Call) (now stamp : Time) (t : Transaction)
    (hv : t.Validate = none) :
    newDailyCount (runCalls NewFraudDetectionService pre) t =
      ((pre.filter (countsFor t)).length : Int) + 1 ∧
    (AnalyzeTransaction (runCalls NewFraudDetectionService pre) now stamp t).store.dailyTransactionCounts
      (dailyKey t) = some (((pre.filter (countsFor t)).length : Int) + 1) ∧
    ∃ r, (AnalyzeTransaction (runCalls NewFraudDetectionService pre) now stamp t).result =
        some r ∧
      ("High daily transaction count" ∈ r.RiskFactors ↔
        (pre.filter (countsFor t)).length + 1 > 10) := by
  have hnew : newDailyCount (runCalls NewFraudDetectionService pre) t =
      ((pre.filter (countsFor t)).length : Int) + 1 := by
    rw [newDailyCount, dailyCount_runCalls]
    simp [dailyCount, NewFraudDetectionService]
  have hmem := factor_mem_iff (runCalls NewFraudDetectionService pre) now t .dailyVelocity
  simp only [Rule.factor, Rule.triggered, decide_eq_true_eq, hnew] at hmem
  refine ⟨hnew, ?_, resultOf (runCalls NewFraudDetectionService pre) now stamp t, ?_, ?_⟩
  · rw [AnalyzeTransaction_valid _ now stamp t hv]
    simp [storeAfter, mapSet, hnew]
  · rw [AnalyzeTransaction_valid _ now stamp t hv]
  · show "High daily transaction count" ∈
        (triggeredRules (runCalls NewFraudDetectionService pre) now t).map (Rule.factor t) ↔ _
    rw [hmem]
    constructor
    · intro h
      omega
    · intro h
      omega

theorem daily_count_includes_current_witness :
    (burstCall "B11").transaction.Validate = none ∧
    (∃ r, (AnalyzeTransaction (runCalls NewFraudDetectionService (elevenCalls.take 10))
        noonTime noonTime (burstCall "B11").transaction).result = some r ∧
      "High daily transaction count" ∈ r.RiskFactors) ∧
    (∃ r, (AnalyzeTransaction (runCalls NewFraudDetectionService (elevenCalls.take 9))
        noonTime noonTime (burstCall "B10").transaction).result = some r ∧
      "High daily transaction count" ∉ r.RiskFactors) := by
  obtain ⟨-, -, r, hr, hiff⟩ :=
    daily_count_includes_current (elevenCalls.take 10) noonTime noonTime
      (burstCall "B11").transaction (by decide)
  obtain ⟨-, -, r', hr', hiff'⟩ :=
    daily_count_includes_current (elevenCalls.take 9) noonTime noonTime
      (burstCall "B10").transaction (by decide)
  refine ⟨by decide, ⟨r, hr, hiff.mpr ?_⟩, ⟨r', hr', fun h => absurd (hiff'.mp h) ?_⟩⟩
  · decide
  · decide

/-! ## The new-device stub -/

/-- C20: the new-device predicate always answers that the device is new: for
every store and every transaction that passes Validate, the result contains
Transaction from new device exactly when the device fingerprint is non-empty,
the rule then contributing 0.15, whatever the store holds, also when the same
fingerprint is already recorded in the history of the account. -/
theorem new_device_iff_fingerprint (s : FraudDetectionService) (now stamp : Time)
    (t : Transaction) (hv : t.Validate = none) :
    (∀ t' : Transaction, isNewDevice t' = true) ∧
    (∃ r, (AnalyzeTransaction s now stamp t).result = some r ∧
      ("Transaction from new device" ∈ r.RiskFactors ↔ t.DeviceFingerprint ≠ "") ∧
      ((∃ e ∈ history s t.AccountID, e.DeviceFingerprint = t.DeviceFingerprint) →
        t.DeviceFingerprint ≠ "" → "Transaction from new device" ∈ r.RiskFactors)) ∧
    (∀ fs : List String,
      (analyzeDeviceRisk t fs).1 =
        (if t.DeviceFingerprint ≠ "" then 0.15 else 0) +
        (if isSuspiciousIP t.IPAddress = true then 0.2 else 0)) ∧
    (Rule.weight .newDevice = 0.15 ∧
      (Rule.triggered s now t .newDevice = true ↔ t.DeviceFingerprint ≠ "")) := by
  have hmem := factor_mem_iff s now t .newDevice
  simp only [Rule.factor, Rule.triggered, decide_eq_true_eq] at hmem
  refine ⟨fun _ => rfl, ⟨resultOf s now stamp t, ?_, hmem, fun _ h => hmem.mpr h⟩, ?_,
    rfl, ?_⟩
  · rw [AnalyzeTransaction_valid s now stamp t hv]
  · intro fs
    rw [analyzeDeviceRisk_eq s now t fs]
    simp only [Rule.triggered, contribution, decide_eq_true_eq, isSuspiciousIP_eq]
  · simp [Rule.triggered]

theorem new_device_iff_fingerprint_witness :
    deviceTransaction.Validate = none ∧
    (∃ e ∈ history seenDeviceStore deviceTransaction.AccountID,
      e.DeviceFingerprint = deviceTransaction.DeviceFingerprint) ∧
    ∃ r, (AnalyzeTransaction seenDeviceStore noonTime noonTime deviceTransaction).result =
        some r ∧ "Transaction from new device" ∈ r.RiskFactors := by
  have hseen : ∃ e ∈ history seenDeviceStore deviceTransaction.AccountID,
      e.DeviceFingerprint = deviceTransaction.DeviceFingerprint :=
    ⟨deviceTransaction, by decide, rfl⟩
  obtain ⟨-, ⟨r, hr, -, hin⟩, -⟩ :=
    new_device_iff_fingerprint seenDeviceStore noonTime noonTime deviceTransaction (by decide)
  exact ⟨by decide, hseen, r, hr, hin hseen (by decide)⟩

/-! ## Unusual hours -/

theorem Hour_range (t : Time) : 0 ≤ t.Hour ∧ t.Hour ≤ 23 := by
  unfold Time.Hour
  omega

/-- C21: `analyzeTimeBasedRisk` contributes 0.1 and appends Transaction during
unusual hours exactly when the hour of the transaction's own timestamp is
below 6 or above 23. The hour is always between 0 and 23, so the condition is
the same as the hour being one of 0 to 5, the second disjunct never holds, 3 AM
is flagged and hour 23 is not. -/
theorem unusual_hours_iff (t : Transaction) (fs : List String) :
    (0 ≤ t.TransactionTimestamp.Hour ∧ t.TransactionTimestamp.Hour ≤ 23) ∧
    ¬ t.TransactionTimestamp.Hour > 23 ∧
    ((t.TransactionTimestamp.Hour < 6 ∨ t.TransactionTimestamp.Hour > 23) ↔
      t.TransactionTimestamp.Hour ∈ [0, 1, 2, 3, 4, 5]) ∧
    (analyzeTimeBasedRisk t fs = (0.1, fs ++ ["Transaction during unusual hours"]) ↔
      t.TransactionTimestamp.Hour < 6 ∨ t.TransactionTimestamp.Hour > 23) ∧
    (analyzeTimeBasedRisk t fs = (0, fs) ↔
      ¬ (t.TransactionTimestamp.Hour < 6 ∨ t.TransactionTimestamp.Hour > 23)) ∧
    ((analyzeTimeBasedRisk t fs).1 = 0.1 ↔
      t.TransactionTimestamp.Hour < 6 ∨ t.TransactionTimestamp.Hour > 23) ∧
    ("Transaction during unusual hours" ∈ (analyzeTimeBasedRisk t []).2 ↔
      t.TransactionTimestamp.Hour < 6 ∨ t.TransactionTimestamp.Hour > 23) ∧
    (t.TransactionTimestamp.Hour = 3 →
      analyzeTimeBasedRisk t fs = (0.1, fs ++ ["Transaction during unusual hours"])) ∧
    (t.TransactionTimestamp.Hour = 23 → analyzeTimeBasedRisk t fs = (0, fs)) := by
  obtain ⟨h0, h23⟩ := Hour_range t.TransactionTimestamp
  have hyes : (t.TransactionTimestamp.Hour < 6 ∨ t.TransactionTimestamp.Hour > 23) →
      analyzeTimeBasedRisk t fs = (0.1, fs ++ ["Transaction during unusual hours"]) := by
    intro h
    unfold analyzeTimeBasedRisk
    simp only [h, if_true]
    norm_num
  have hno : ¬ (t.TransactionTimestamp.Hour < 6 ∨ t.TransactionTimestamp.Hour > 23) →
      analyzeTimeBasedRisk t fs = (0, fs) := by
    intro h
    unfold analyzeTimeBasedRisk
    simp only [h, if_false]
    norm_num
  have hno' : ¬ (t.TransactionTimestamp.Hour < 6 ∨ t.TransactionTimestamp.Hour > 23) →
      analyzeTimeBasedRisk t [] = (0, []) := by
    intro h
    unfold analyzeTimeBasedRisk
    simp only [h, if_false]
    norm_num
  have hyes' : (t.TransactionTimestamp.Hour < 6 ∨ t.TransactionTimestamp.Hour > 23) →
      analyzeTimeBasedRisk t [] = (0.1, [] ++ ["Transaction during unusual hours"]) := by
    intro h
    unfold analyzeTimeBasedRisk
    simp only [h, if_true]
    norm_num
  refine ⟨⟨h0, h23⟩, by omega, ?_, ?_, ?_, ?_, ?_, ?_, ?_⟩
  · simp only [List.mem_cons, List.mem_singleton, List.not_mem_nil, or_false]
    omega
  · constructor
    · intro h
      by_contra hn
      rw [hno hn] at h
      have := congrArg Prod.fst h
      norm_num at this
    · exact hyes
  · constructor
    · intro h hc
      rw [hyes hc] at h
      have := congrArg Prod.fst h
      norm_num at this
    · exact hno
  · constructor
    · intro h
      by_contra hn
      rw [hno hn] at h
      norm_num at h
    · intro h
      rw [hyes h]
  · constructor
    · intro h
      by_contra hn
      rw [hno' hn] at h
      simp at h
    · intro h
      rw [hyes' h]
      simp
  · intro h
    exact hyes (Or.inl (by omega))
  · intro h
    exact hno (by omega)

theorem unusual_hours_iff_witness :
    analyzeTimeBasedRisk threeAmTransaction [] =
      (0.1, [] ++ ["Transaction during unusual hours"]) ∧
    analyzeTimeBasedRisk elevenPmTransaction [] = (0, []) :=
  ⟨(unusual_hours_iff threeAmTransaction []).2.2.2.2.2.2.2.1 (by decide),
   (unusual_hours_iff elevenPmTransaction []).2.2.2.2.2.2.2.2 (by decide)⟩

/-! ## Unusual amount -/

/-- C22: for every store and transaction, `analyzeAmountRisk` adds 0.2 and the
factor Unusual amount compared to account history exactly when the recorded
history of the account is non-empty and the amount is strictly greater than 5
times the arithmetic mean of the recorded amounts; an amount equal to 5 times
the mean does not trigger it, and with an absent or empty history the rule
does not trigger. -/
theorem unusual_amount_iff (s : FraudDetectionService) (t : Transaction) (fs : List String) :
    ((history s t.AccountID ≠ [] ∧
        t.Amount > 5 * (((history s t.AccountID).map (fun e => e.Amount)).sum /
          ((history s t.AccountID).length : ℚ))) →
      analyzeAmountRisk s t fs =
        ((if t.Amount > 10000 then 0.3 else 0) + 0.2,
         fs ++ (if t.Amount > 10000 then ["High transaction amount"] else []) ++
           ["Unusual amount compared to account history"])) ∧
    (¬ (history s t.AccountID ≠ [] ∧
        t.Amount > 5 * (((history s t.AccountID).map (fun e => e.Amount)).sum /
          ((history s t.AccountID).length : ℚ))) →
      analyzeAmountRisk s t fs =
        ((if t.Amount > 10000 then 0.3 else 0),
         fs ++ (if t.Amount > 10000 then ["High transaction amount"] else []))) ∧
    ("Unusual amount compared to account history" ∈ (analyzeAmountRisk s t []).2 ↔
      history s t.AccountID ≠ [] ∧
        t.Amount > 5 * (((history s t.AccountID).map (fun e => e.Amount)).sum /
          ((history s t.AccountID).length : ℚ))) ∧
    (t.Amount = 5 * (((history s t.AccountID).map (fun e => e.Amount)).sum /
          ((history s t.AccountID).length : ℚ)) →
      "Unusual amount compared to account history" ∉ (analyzeAmountRisk s t []).2) ∧
    ((s.accountHistory t.AccountID = none ∨ s.accountHistory t.AccountID = some []) →
      analyzeAmountRisk s t fs =
        ((if t.Amount > 10000 then 0.3 else 0),
         fs ++ (if t.Amount > 10000 then ["High transaction amount"] else []))) := by
  have hclosed := analyzeAmountRisk_eq s noonTime t fs
  have hclosed' := analyzeAmountRisk_eq s noonTime t []
  simp only [Rule.triggered, mean] at hclosed hclosed'
  have hyes : (history s t.AccountID ≠ [] ∧
        t.Amount > 5 * (((history s t.AccountID).map (fun e => e.Amount)).sum /
          ((history s t.AccountID).length : ℚ))) →
      analyzeAmountRisk s t fs =
        ((if t.Amount > 10000 then 0.3 else 0) + 0.2,
         fs ++ (if t.Amount > 10000 then ["High transaction amount"] else []) ++
           ["Unusual amount compared to account history"]) := by
    intro h
    rw [hclosed]
    simp only [List.length_map] at h ⊢
    by_cases ha : t.Amount > 10000 <;> simp [contribution, factorIf, h, ha]
  have hno : ¬ (history s t.AccountID ≠ [] ∧
        t.Amount > 5 * (((history s t.AccountID).map (fun e => e.Amount)).sum /
          ((history s t.AccountID).length : ℚ))) →
      analyzeAmountRisk s t fs =
        ((if t.Amount > 10000 then 0.3 else 0),
         fs ++ (if t.Amount > 10000 then ["High transaction amount"] else [])) := by
    intro h
    rw [hclosed]
    simp only [List.length_map] at h ⊢
    by_cases ha : t.Amount > 10000 <;> simp [contribution, factorIf, h, ha]
  have hmem : "Unusual amount compared to account history" ∈ (analyzeAmountRisk s t []).2 ↔
      history s t.AccountID ≠ [] ∧
        t.Amount > 5 * (((history s t.AccountID).map (fun e => e.Amount)).sum /
          ((history s t.AccountID).length : ℚ)) := by
    rw [hclosed']
    simp only [List.length_map]
    by_cases ha : t.Amount > 10000 <;>
      by_cases hu : (history s t.AccountID ≠ [] ∧
        t.Amount > 5 * (((history s t.AccountID).map (fun e => e.Amount)).sum /
          ((history s t.AccountID).length : ℚ))) <;>
      simp [factorIf, ha, hu]
  refine ⟨hyes, hno, hmem, ?_, ?_⟩
  · intro heq hin
    have := (hmem.mp hin).2
    rw [← heq] at this
    exact lt_irrefl _ this
  · intro h
    apply hno
    intro hu
    apply hu.1
    rcases h with h | h <;> simp [history, h]

theorem unusual_amount_iff_witness :
    analyzeAmountRisk twoEntryStore thirdTransaction [] =
      ((if thirdTransaction.Amount > 10000 then 0.3 else 0) + 0.2,
       [] ++ (if thirdTransaction.Amount > 10000 then ["High transaction amount"] else []) ++
         ["Unusual amount compared to account history"]) ∧
    "Unusual amount compared to account history" ∉
      (analyzeAmountRisk twoEntryStore fiveTimesMeanTransaction []).2 ∧
    analyzeAmountRisk NewFraudDetectionService thirdTransaction [] =
      ((if thirdTransaction.Amount > 10000 then 0.3 else 0),
       [] ++ (if thirdTransaction.Amount > 10000 then ["High transaction amount"] else [])) := by
  have hhist : history twoEntryStore "ACC009" = [earlierTransaction, earlierTransaction] := by
    decide
  have ha : earlierTransaction.Amount = 50 := rfl
  refine ⟨(unusual_amount_iff twoEntryStore thirdTransaction []).1 ⟨by decide, ?_⟩,
    (unusual_amount_iff twoEntryStore fiveTimesMeanTransaction []).2.2.2.1 ?_,
    (unusual_amount_iff NewFraudDetectionService thirdTransaction []).2.2.2.2 (Or.inl rfl)⟩
  · show (9000 : ℚ) > 5 * (((history twoEntryStore "ACC009").map (fun e => e.Amount)).sum /
      ((history twoEntryStore "ACC009").length : ℚ))
    rw [hhist]
    norm_num [ha]
  · show (250 : ℚ) = 5 * (((history twoEntryStore "ACC009").map (fun e => e.Amount)).sum /
      ((history twoEntryStore "ACC009").length : ℚ))
    rw [hhist]
    norm_num [ha]

/-! ## Calendar days and the date text -/

theorem digitValue_digitChar (n : Nat) (h : n < 10) : digitValue (Nat.digitChar n) = n := by
  interval_cases n <;> decide

theorem digitChar_ne_minus (n : Nat) (h : n < 10) : Nat.digitChar n ≠ '-' := by
  interval_cases n <;> decide

theorem readDigits_toDigitsCore (fuel n : Nat) (ds : List Char) (h : n < fuel) :
    readDigits 0 (Nat.toDigitsCore 10 fuel n ds) = readDigits n ds := by
  induction fuel generalizing n ds with
  | zero => omega
  | succ fuel ih =>
    unfold Nat.toDigitsCore
    dsimp only
    have hv := digitValue_digitChar (n % 10) (Nat.mod_lt _ (by decide))
    split_ifs with h0
    · have hn : n % 10 = n := by omega
      simp only [readDigits, List.foldl_cons, hv, zero_mul, zero_add]
      rw [hn]
    · rw [ih (n / 10) _ (by omega)]
      simp only [readDigits, List.foldl_cons, hv]
      have : n / 10 * 10 + n % 10 = n := by omega
      rw [this]

theorem readDigits_toDigits (n : Nat) : readDigits 0 (Nat.toDigits 10 n) = n := by
  unfold Nat.toDigits
  rw [readDigits_toDigitsCore _ _ _ (Nat.lt_succ_self n)]
  rfl

theorem readDigits_zeros (k : Nat) (l : List Char) :
    readDigits 0 (List.replicate k '0' ++ l) = readDigits 0 l := by
  induction k with
  | zero => rfl
  | succ k ih =>
    rw [List.replicate_succ, List.cons_append]
    have : readDigits 0 ('0' :: (List.replicate k '0' ++ l)) =
        readDigits 0 (List.replicate k '0' ++ l) := by
      simp [readDigits, digitValue]
    rw [this, ih]

theorem toDigitsCore_no_minus (fuel n : Nat) (ds : List Char) (h : ∀ c ∈ ds, c ≠ '-') :
    ∀ c ∈ Nat.toDigitsCore 10 fuel n ds, c ≠ '-' := by
  induction fuel generalizing n ds with
  | zero => exact h
  | succ fuel ih =>
    have hd : ∀ c ∈ Nat.digitChar (n % 10) :: ds, c ≠ '-' := by
      intro c hc
      rcases List.mem_cons.mp hc with rfl | hc
      · exact digitChar_ne_minus _ (Nat.mod_lt _ (by decide))
      · exact h c hc
    unfold Nat.toDigitsCore
    dsimp only
    split_ifs
    · exact hd
    · exact ih (n / 10) _ hd

/-- The zero-padded digits of a number contain no minus sign. -/
theorem padded_no_minus (n width : Nat) :
    ∀ c ∈ List.replicate (width - (Nat.toDigits 10 n).length) '0' ++ Nat.toDigits 10 n,
      c ≠ '-' := by
  intro c hc
  rcases List.mem_append.mp hc with hc | hc
  · rw [(List.mem_replicate.mp hc).2]
    decide
  · exact toDigitsCore_no_minus _ _ [] (fun _ h => absurd h (List.not_mem_nil _)) c hc

theorem readInt_of_no_minus (l : List Char) (h : ∀ c ∈ l, c ≠ '-') :
    readInt l = (readDigits 0 l : Nat) := by
  cases l with
  | nil => rfl
  | cons c rest =>
    have hc : c ≠ '-' := h c (List.mem_cons_self _ _)
    simp only [readInt, hc, if_false]

/-- Reading back the text that `appendInt` writes gives the number. -/
theorem readInt_appendInt (x : Int) (width : Nat) : readInt (appendInt x width).data = x := by
  have hval : readDigits 0
      (List.replicate (width - (Nat.toDigits 10 x.natAbs).length) '0' ++
        Nat.toDigits 10 x.natAbs) = x.natAbs := by
    rw [readDigits_zeros, readDigits_toDigits]
  unfold appendInt
  dsimp only
  split_ifs with hneg
  · simp only [readInt, if_true, hval]
    omega
  · rw [readInt_of_no_minus _ (padded_no_minus x.natAbs width), hval]
    omega

theorem appendInt_injective (width : Nat) (x y : Int)
    (h : appendInt x width = appendInt y width) : x = y := by
  rw [← readInt_appendInt x width, ← readInt_appendInt y width, h]

theorem appendInt_no_minus_of_nonneg (x : Int) (width : Nat) (h : 0 ≤ x) :
    '-' ∉ (appendInt x width).data := by
  intro hmem
  unfold appendInt at hmem
  dsimp only at hmem
  rw [if_neg (not_lt.mpr h)] at hmem
  exact padded_no_minus x.natAbs width _ hmem rfl

theorem civilFromDays_month_day_nonneg (days : Int) :
    0 ≤ (civilFromDays days).2.1 ∧ 0 ≤ (civilFromDays days).2.2 := by
  unfold civilFromDays
  simp only
  constructor
  · split_ifs <;> omega
  · omega

/-- The date text of two times is the same exactly when their calendar days
are the same. -/
theorem FormatDate_eq_iff (t t' : Time) : t.FormatDate = t'.FormatDate ↔ t.Date = t'.Date := by
  constructor
  · intro h
    have hform : ∀ u : Time, u.FormatDate.data.reverse =
        (appendInt (civilFromDays (u.localSeconds / 86400)).2.2 2).data.reverse ++
          '-' :: ((appendInt (civilFromDays (u.localSeconds / 86400)).2.1 2).data.reverse ++
            '-' :: (appendInt (civilFromDays (u.localSeconds / 86400)).1 4).data.reverse) := by
      intro u
      have hsep : ("-" : String).data = ['-'] := rfl
      simp only [Time.FormatDate, String.data_append, List.reverse_append, hsep,
        List.reverse_cons, List.reverse_nil, List.nil_append, List.append_assoc,
        List.singleton_append, List.cons_append]
    have hdata : t.FormatDate.data.reverse = t'.FormatDate.data.reverse := by rw [h]
    rw [hform t, hform t'] at hdata
    obtain ⟨hm, hd⟩ := civilFromDays_month_day_nonneg (t.localSeconds / 86400)
    obtain ⟨hm', hd'⟩ := civilFromDays_month_day_nonneg (t'.localSeconds / 86400)
    have h1 := split_at_last_unique '-' _ _ _ _
      (fun hc => appendInt_no_minus_of_nonneg _ 2 hd (List.mem_reverse.mp hc))
      (fun hc => appendInt_no_minus_of_nonneg _ 2 hd' (List.mem_reverse.mp hc)) hdata
    have h2 := split_at_last_unique '-' _ _ _ _
      (fun hc => appendInt_no_minus_of_nonneg _ 2 hm (List.mem_reverse.mp hc))
      (fun hc => appendInt_no_minus_of_nonneg _ 2 hm' (List.mem_reverse.mp hc)) h1.2
    have hday := appendInt_injective 2 _ _ (String.ext (List.reverse_injective h1.1))
    have hmonth := appendInt_injective 2 _ _ (String.ext (List.reverse_injective h2.1))
    have hyear := appendInt_injective 4 _ _ (String.ext (List.reverse_injective h2.2))
    unfold Time.Date
    exact Prod.ext hyear (Prod.ext hmonth hday)
  · intro h
    unfold Time.Date at h
    unfold Time.FormatDate
    simp only [h]

theorem counts_storeAfter (s : FraudDetectionService) (t : Transaction) (key : String) :
    (storeAfter s t).dailyTransactionCounts key =
      if key = dailyKey t then some (counterAt s (dailyKey t) + 1)
      else s.dailyTransactionCounts key := by
  simp only [storeAfter, mapSet, newDailyCount, dailyCount, counterAt]

/-- C23: the key of the daily counter, account identifier, colon and date text,
determines the account and the calendar day: the date text has no colon, so
two transactions have the same key exactly when they have the same AccountID
and the same calendar day, whatever characters the identifiers contain. A call
with a transaction that passes Validate therefore adds 1 to the counter of the
transaction's account and day and leaves every other counter as it was. -/
theorem daily_key_injective (s : FraudDetectionService) (now stamp : Time)
    (t t' : Transaction) :
    ':' ∉ t.TransactionTimestamp.FormatDate.data ∧
    (t.TransactionTimestamp.FormatDate = t'.TransactionTimestamp.FormatDate ↔
      t.TransactionTimestamp.Date = t'.TransactionTimestamp.Date) ∧
    (dailyKey t = dailyKey t' ↔
      t.AccountID = t'.AccountID ∧
      t.TransactionTimestamp.Date = t'.TransactionTimestamp.Date) ∧
    (t.Validate = none →
      counterAt (AnalyzeTransaction s now stamp t).store (dailyKey t) =
        counterAt s (dailyKey t) + 1 ∧
      (∀ key, key ≠ dailyKey t →
        (AnalyzeTransaction s now stamp t).store.dailyTransactionCounts key =
          s.dailyTransactionCounts key) ∧
      ((t'.AccountID = t.AccountID ∧
          t'.TransactionTimestamp.Date = t.TransactionTimestamp.Date) →
        dailyCount (AnalyzeTransaction s now stamp t).store t' = dailyCount s t' + 1) ∧
      ((t'.AccountID ≠ t.AccountID ∨
          t'.TransactionTimestamp.Date ≠ t.TransactionTimestamp.Date) →
        dailyCount (AnalyzeTransaction s now stamp t).store t' = dailyCount s t')) := by
  have hkey : ∀ a b : Transaction, dailyKey a = dailyKey b ↔
      a.AccountID = b.AccountID ∧
      a.TransactionTimestamp.Date = b.TransactionTimestamp.Date := by
    intro a b
    rw [dailyKey_eq_iff, FormatDate_eq_iff]
  refine ⟨FormatDate_no_colon _, FormatDate_eq_iff _ _, hkey t t', ?_⟩
  intro hv
  rw [AnalyzeTransaction_valid s now stamp t hv]
  refine ⟨?_, ?_, ?_, ?_⟩
  · simp only [counterAt, counts_storeAfter, if_true, Option.getD_some]
  · intro key hne
    rw [counts_storeAfter, if_neg hne]
  · intro hsame
    have hk : dailyKey t' = dailyKey t := (hkey t' t).mpr hsame
    simp only [dailyCount, counts_storeAfter, hk, if_true, Option.getD_some, counterAt]
  · intro hdiff
    have hk : dailyKey t' ≠ dailyKey t := by
      intro hk
      have := (hkey t' t).mp hk
      rcases hdiff with hd | hd
      · exact hd this.1
      · exact hd this.2
    simp only [dailyCount, counts_storeAfter, hk, if_false]

theorem daily_key_injective_witness :
    colonAccountTransaction.Validate = none ∧
    colonAccountTransaction.TransactionTimestamp.Date = (2024, 7, 28) ∧
    dailyKey colonAccountTransaction = "ACC:2024-07-28:X:2024-07-28" ∧
    counterAt (AnalyzeTransaction NewFraudDetectionService noonTime noonTime
      colonAccountTransaction).store (dailyKey colonAccountTransaction) = 1 ∧
    dailyCount (AnalyzeTransaction NewFraudDetectionService noonTime noonTime
      colonAccountTransaction).store plainAccountTransaction = 0 := by
  obtain ⟨h1, -, -, h4⟩ :=
    (daily_key_injective NewFraudDetectionService noonTime noonTime colonAccountTransaction
      plainAccountTransaction).2.2.2 (by decide)
  refine ⟨by decide, by decide, by decide, ?_, ?_⟩
  · rw [h1]
    rfl
  · rw [h4 (Or.inl (by decide))]
    rfl

end FraudDetection
